import Mathlib

/-
Verification of the download-manager core of the phyrexian-library repository
(src/utility/download.rs) against its natural-language specification.

The Rust source is shallowly embedded as follows:
  * `DownloadStatus`, `DownloadError`, `Download`, `DownloadProxy` and
    `DownloadManager` mirror the corresponding Rust types.  `f64` speed values
    are modelled as rationals, `u64` counters as `Nat` (no claim depends on
    64-bit wrap-around), and `Arc<Mutex<Download>>` sharing is modelled by a
    heap of `Download` values addressed by `Nat` identifiers.
  * The external collaborators (reqwest, the filesystem, the system clock) are
    modelled by a `World` oracle that fixes the outcome of every call the
    transfer routine `download_to_file` makes.
  * The routine itself is a pure function producing a log of every mutation it
    performs on the shared download state (`MutEvent`), the final content of
    the output file, and whether it returned normally or hit the `expect`
    panic on `Path::parent`.
-/

namespace PhyrexianDownload

/-- The relevant values of Rust's `std::io::ErrorKind`.  `interrupted` is the
kind retried by the streaming loop and by `Write::write_all`; `invalidInput`
is the kind the source synthesizes for non-success HTTP statuses and for a
destination that is a directory; `writeZero` is produced by `write_all` when a
low-level write accepts zero bytes; `other` stands for every remaining kind. -/
inductive IoErrorKind
  | interrupted
  | invalidInput
  | writeZero
  | other
deriving DecidableEq, Repr

/-- Rust `enum DownloadError { IoError(io::Error), ReqwestError(reqwest::Error) }`.
Only the error kind of the payload is observable in the model. -/
inductive DownloadError
  | ioError (kind : IoErrorKind)
  | reqwestError
deriving DecidableEq, Repr

/-- Rust `enum DownloadStatus { Successful, Failed(Arc<DownloadError>), Pending, Running }`. -/
inductive DownloadStatus
  | successful
  | failed (err : DownloadError)
  | pending
  | running
deriving DecidableEq, Repr

/-- `DownloadStatus::is_pending`. -/
def DownloadStatus.is_pending : DownloadStatus → Bool
  | .pending => true
  | _ => false

/-- `DownloadStatus::is_running`. -/
def DownloadStatus.is_running : DownloadStatus → Bool
  | .running => true
  | _ => false

/-- `DownloadStatus::is_successful`. -/
def DownloadStatus.is_successful : DownloadStatus → Bool
  | .successful => true
  | _ => false

/-- `DownloadStatus::is_failed`. -/
def DownloadStatus.is_failed : DownloadStatus → Bool
  | .failed _ => true
  | _ => false

/-- `DownloadStatus::get_error`. -/
def DownloadStatus.get_error : DownloadStatus → Option DownloadError
  | .failed err => some err
  | _ => none

/-- A status is terminal when it is `Successful` or `Failed`. -/
def DownloadStatus.isTerminal : DownloadStatus → Bool
  | .successful => true
  | .failed _ => true
  | _ => false

/-- Rust `struct Download`, with `speed: f64` modelled as a rational. -/
structure Download where
  status : DownloadStatus
  downloaded_size : Nat
  total_size : Option Nat
  speed : Rat
deriving DecidableEq, Repr

/-- `Download::pending()`: the freshly created state. -/
def Download.pending : Download :=
  { status := DownloadStatus.pending
    downloaded_size := 0
    total_size := none
    speed := 0 }

/-- `Download::get_downloaded_size`. -/
def Download.get_downloaded_size (d : Download) : Nat :=
  d.downloaded_size

/-- `Download::get_download_speed`: the speed is only reported while running. -/
def Download.get_download_speed (d : Download) : Option Rat :=
  match d.status with
  | DownloadStatus.running => some d.speed
  | _ => none

/-- One mutation of the shared `Arc<Mutex<Download>>` state, as performed by
the transfer routine through `download.lock()`. -/
inductive MutEvent
  | setStatus (s : DownloadStatus)
  | setTotalSize (n : Nat)
  | setSpeed (q : Rat)
  | setDownloadedSize (n : Nat)
deriving DecidableEq, Repr

/-- Apply one mutation to a download state. -/
def applyEvent (d : Download) : MutEvent → Download
  | .setStatus s => { d with status := s }
  | .setTotalSize n => { d with total_size := some n }
  | .setSpeed q => { d with speed := q }
  | .setDownloadedSize n => { d with downloaded_size := n }

/-- Replay a mutation log on a download state. -/
def applyLog (log : List MutEvent) (d : Download) : Download :=
  log.foldl applyEvent d

/-- The sequence of values written to the `status` field by a log. -/
def statusWrites (log : List MutEvent) : List DownloadStatus :=
  log.filterMap fun e =>
    match e with
    | .setStatus s => some s
    | _ => none

/-- The sequence of values written to the `downloaded_size` field by a log. -/
def sizeWrites (log : List MutEvent) : List Nat :=
  log.filterMap fun e =>
    match e with
    | .setDownloadedSize n => some n
    | _ => none

/-- The sequence of values written to the `total_size` field by a log. -/
def totalWrites (log : List MutEvent) : List Nat :=
  log.filterMap fun e =>
    match e with
    | .setTotalSize n => some n
    | _ => none

/-- The writes of a log with the `speed` samples removed; speed samples touch
no other field. -/
def nonSpeedWrites (log : List MutEvent) : List MutEvent :=
  log.filter fun e =>
    match e with
    | .setSpeed _ => false
    | _ => true

/-- The sequence of values written to the `speed` field by a log. -/
def speedWrites (log : List MutEvent) : List Rat :=
  log.filterMap fun e =>
    match e with
    | .setSpeed q => some q
    | _ => none

/-- The terminal statuses written by a log. -/
def terminalWrites (log : List MutEvent) : List DownloadStatus :=
  (statusWrites log).filter fun s => s.isTerminal

/-- The last element of a list, or the default when the list is empty: the
value a field holds after a sequence of writes. -/
def lastD (l : List α) (a : α) : α :=
  l.foldl (fun _ x => x) a

/-- Rust `u64::from_str`: an optional leading plus sign followed by at least
one ASCII digit, with the value required to fit into 64 bits. -/
def u64FromStr (s : String) : Option Nat :=
  let cs := match s.data with
    | '+' :: rest => rest
    | cs => cs
  if cs = [] then none
  else if cs.all Char.isDigit then
    let v := cs.foldl (fun acc c => acc * 10 + (c.toNat - 48)) 0
    if v < 2 ^ 64 then some v else none
  else none

/-- The observable part of a `reqwest::Response`: whether
`response.status().is_success()` holds, and the raw content-length header.
The outer option is `headers().get(CONTENT_LENGTH)` (header present or not),
the inner option is `HeaderValue::to_str` (valid visible ASCII or not). -/
structure Response where
  statusSuccess : Bool
  contentLength : Option (Option String)
deriving DecidableEq, Repr

/-- The `Some(Ok(Ok(length)))` pattern of the source: the content-length
header exists, converts to a string, and parses as a `u64`. -/
def parsedContentLength (r : Response) : Option Nat :=
  match r.contentLength with
  | some (some s) => u64FromStr s
  | _ => none

/-- A Rust `Path`/`PathBuf`, reduced to what `Path::parent` observes: whether
the path is absolute and its list of normal components.  The empty relative
path models `Path::new("")` and `⟨true, []⟩` models the root path. -/
structure RsPath where
  absolute : Bool
  components : List String
deriving DecidableEq, Repr

/-- `Path::parent`: `none` exactly for an empty path or a bare root, otherwise
the path with its last component removed. -/
def RsPath.parent (p : RsPath) : Option RsPath :=
  match p.components with
  | [] => none
  | _ :: _ => some { absolute := p.absolute, components := p.components.dropLast }

/-- One low-level `write` call made inside `Write::write_all`: either `Ok(n)`
(the sink accepted `n` bytes) or `Err` of some kind. -/
inductive WriteStep
  | wrote (n : Nat)
  | err (kind : IoErrorKind)
deriving DecidableEq, Repr

/-- Rust `Write::write_all` over an oracle list of low-level write outcomes
and the number of bytes still to be written: loops until the buffer is empty,
turns `Ok(0)` into a `writeZero` error, silently retries `interrupted`
errors and returns the first other error.  `none` means the oracle was
exhausted before the call could finish (no real run does this).
The result `some none` is success, `some (some k)` an error of kind `k`. -/
def write_all : List WriteStep → Nat → Option (Option IoErrorKind)
  | _, 0 => some none
  | [], _ + 1 => none
  | WriteStep.wrote n :: rest, m + 1 =>
    if n = 0 then some (some IoErrorKind.writeZero)
    else write_all rest (m + 1 - n)
  | WriteStep.err k :: rest, m + 1 =>
    if k = IoErrorKind.interrupted then write_all rest (m + 1)
    else some (some k)

/-- The outcome of one `response.read(&mut buf)` call in the streaming loop,
together with (for a successful read) the oracle for the following
`write_all` call.  `data bytes steps` is `Ok(bytes.len())` filling the buffer
with `bytes`; `Ok(0)` is represented by `data [] steps` or `eof`. -/
inductive ReadEvent
  | eof
  | data (bytes : List Nat) (steps : List WriteStep)
  | readErr (kind : IoErrorKind)
deriving DecidableEq, Repr

/-- One iteration of the streaming loop: the outcome of `t_start.elapsed()`
at the top of the loop (`none` for `Err`, `some n` for a duration of `n`
nanoseconds) and the outcome of the read. -/
structure LoopEvent where
  elapsed : Option Nat
  read : ReadEvent
deriving DecidableEq, Repr

/-- `DOWNLOAD_SPEED_INTERVAL` (200 ms) in nanoseconds. -/
def DOWNLOAD_SPEED_INTERVAL_NS : Nat := 200000000

/-- How the streaming loop ended: normal end of stream, a terminal error, or
oracle exhaustion (`stuck`, which no real run exhibits). -/
inductive LoopOut
  | success
  | failed
  | stuck
deriving DecidableEq, Repr

/-- The result of the streaming loop: the mutations it performed, how it
ended, the final value of the local `written` counter and the bytes written
to the file so far. -/
structure LoopResult where
  log : List MutEvent
  out : LoopOut
  written : Nat
  bytes : List Nat
deriving DecidableEq, Repr

/-- The speed sampling at the top of each loop iteration: when
`t_start.elapsed()` succeeds and at least `DOWNLOAD_SPEED_INTERVAL` passed,
publish the bytes written since the last sample divided by the elapsed time
and reset the sample baseline; returns the mutations performed and the new
`written_update`. -/
def speedSample (elapsed : Option Nat) (written written_update : Nat) : List MutEvent × Nat :=
  match elapsed with
  | some t =>
    if DOWNLOAD_SPEED_INTERVAL_NS ≤ t then
      ([MutEvent.setSpeed (((written - written_update) * 1000000000 : Nat) / (t : Rat))],
        written)
    else ([], written_update)
  | none => ([], written_update)

/-- The streaming loop of `download_to_file`: at the top of each iteration it
samples the speed if at least the speed interval elapsed, then reads a chunk;
`Ok(0)` breaks successfully, an `interrupted` read error retries, any other
read error or any `write_all` error fails the download, and a written chunk
advances `written` and publishes it as `downloaded_size`. -/
def streamLoop : List LoopEvent → Nat → Nat → List Nat → LoopResult
  | [], written, _, acc => { log := [], out := LoopOut.stuck, written := written, bytes := acc }
  | e :: rest, written, written_update, acc =>
    let sample := speedSample e.elapsed written written_update
    match e.read with
    | ReadEvent.eof =>
      { log := sample.1, out := LoopOut.success, written := written, bytes := acc }
    | ReadEvent.readErr k =>
      if k = IoErrorKind.interrupted then
        let r := streamLoop rest written sample.2 acc
        { r with log := sample.1 ++ r.log }
      else
        { log := sample.1 ++ [MutEvent.setStatus (DownloadStatus.failed (DownloadError.ioError k))]
          out := LoopOut.failed, written := written, bytes := acc }
    | ReadEvent.data bytes steps =>
      if bytes.length = 0 then
        { log := sample.1, out := LoopOut.success, written := written, bytes := acc }
      else
        match write_all steps bytes.length with
        | none => { log := sample.1, out := LoopOut.stuck, written := written, bytes := acc }
        | some (some k) =>
          { log := sample.1 ++
              [MutEvent.setStatus (DownloadStatus.failed (DownloadError.ioError k))]
            out := LoopOut.failed, written := written, bytes := acc }
        | some none =>
          let r := streamLoop rest (written + bytes.length) sample.2 (acc ++ bytes)
          { r with
            log := sample.1 ++ [MutEvent.setDownloadedSize (written + bytes.length)] ++ r.log }

/-- The oracle fixing the outcome of every external call `download_to_file`
makes: `link.into_url()`, `reqwest::get`, `output.is_dir()`,
`fs::create_dir_all` (`none` is success, `some k` an error of kind `k`),
`OpenOptions::open` (`Except.ok` carries the pre-existing file content, empty
for a freshly created file), and the streaming-loop events. -/
structure World where
  intoUrl : Bool
  get : Option Response
  isDir : Bool
  createDirAll : Option IoErrorKind
  openFile : Except IoErrorKind (List Nat)
  events : List LoopEvent
deriving Repr

/-- The opened output file: its pre-existing content and the bytes the
routine wrote, sequentially from offset zero (the open options do not
truncate). -/
structure FileState where
  old : List Nat
  written : List Nat
deriving DecidableEq, Repr

/-- Whether `download_to_file` returned normally, aborted on the
`Path::parent` `expect`, or exhausted its oracle (`stuck`; no real run). -/
inductive RoutineOutcome
  | returned
  | panicked
  | stuck
deriving DecidableEq, Repr

/-- A complete run of `download_to_file`: the log of mutations of the shared
download state, how the routine ended, and the output file if it was opened. -/
structure RunResult where
  log : List MutEvent
  outcome : RoutineOutcome
  file : Option FileState
deriving Repr

/-- The mutations performed by the content-length step: record the header
value as `total_size` when it parsed, nothing otherwise. -/
def clPart : Option Nat → List MutEvent
  | some length => [MutEvent.setTotalSize length]
  | none => []

/-- `fail_download`: store a `Failed` status carrying the error. -/
def fail_download (failure : DownloadError) : MutEvent :=
  MutEvent.setStatus (DownloadStatus.failed failure)

/-- `download_to_file(link, output, download)`, with the external calls
resolved by the world oracle `w`: mark the state `Running`; parse the URL;
issue the request; reject a non-success response status (as an
`InvalidInput` io error); record a parseable content-length header; reject a
destination that is a directory; compute the parent directory (the `expect`
panic when the path has none); create the parent directories; open the output
file (read, write, create, no append — and hence no truncation); then run the
streaming loop and set the terminal status. -/
def download_to_file (output : RsPath) (w : World) : RunResult :=
  let log : List MutEvent := [MutEvent.setStatus DownloadStatus.running]
  if w.intoUrl = false then
    { log := log ++ [fail_download DownloadError.reqwestError]
      outcome := RoutineOutcome.returned, file := none }
  else
    match w.get with
    | none =>
      { log := log ++ [fail_download DownloadError.reqwestError]
        outcome := RoutineOutcome.returned, file := none }
    | some response =>
      if response.statusSuccess = false then
        { log := log ++ [fail_download (DownloadError.ioError IoErrorKind.invalidInput)]
          outcome := RoutineOutcome.returned, file := none }
      else
        let log := log ++ clPart (parsedContentLength response)
        if w.isDir then
          { log := log ++ [fail_download (DownloadError.ioError IoErrorKind.invalidInput)]
            outcome := RoutineOutcome.returned, file := none }
        else
          match output.parent with
          | none => { log := log, outcome := RoutineOutcome.panicked, file := none }
          | some _ =>
            match w.createDirAll with
            | some k =>
              { log := log ++ [fail_download (DownloadError.ioError k)]
                outcome := RoutineOutcome.returned, file := none }
            | none =>
              match w.openFile with
              | Except.error k =>
                { log := log ++ [fail_download (DownloadError.ioError k)]
                  outcome := RoutineOutcome.returned, file := none }
              | Except.ok old =>
                let r := streamLoop w.events 0 0 []
                match r.out with
                | LoopOut.success =>
                  { log := log ++ r.log ++ [MutEvent.setStatus DownloadStatus.successful]
                    outcome := RoutineOutcome.returned
                    file := some { old := old, written := r.bytes } }
                | LoopOut.failed =>
                  { log := log ++ r.log, outcome := RoutineOutcome.returned
                    file := some { old := old, written := r.bytes } }
                | LoopOut.stuck =>
                  { log := log ++ r.log, outcome := RoutineOutcome.stuck
                    file := some { old := old, written := r.bytes } }

/-- The shared download state at the end of a run: the mutation log replayed
on the freshly created `Pending` state. -/
def finalDownload (r : RunResult) : Download :=
  applyLog r.log Download.pending

/-- The bytes the run wrote into the output file. -/
def RunResult.writtenBytes (r : RunResult) : List Nat :=
  match r.file with
  | some fs => fs.written
  | none => []

/-- The content of the output file on disk after the run: the written bytes
followed by whatever pre-existing content lies beyond them (the open options
never truncate); `none` when the file was never opened. -/
def RunResult.diskContent (r : RunResult) : Option (List Nat) :=
  match r.file with
  | some fs => some (fs.written ++ fs.old.drop fs.written.length)
  | none => none

/-- The guards preceding the `OpenOptions::open` call all pass: URL and
request succeed, the response status is a success, the destination is not a
directory, it has a parent, and `create_dir_all` succeeds. -/
def reachesOpen (output : RsPath) (w : World) : Bool :=
  w.intoUrl &&
    (match w.get with
      | some response => response.statusSuccess
      | none => false) &&
    !w.isDir && output.parent.isSome && w.createDirAll.isNone

/-- The run fails at one of the steps preceding the streaming loop: URL
parsing, the request, a non-success response status, a destination that is a
directory, parent-directory creation, or the file open. -/
def preLoopFail (output : RsPath) (w : World) : Bool :=
  if w.intoUrl = false then true
  else
    match w.get with
    | none => true
    | some response =>
      if response.statusSuccess = false then true
      else if w.isDir then true
      else
        match output.parent with
        | none => false
        | some _ =>
          match w.createDirAll with
          | some _ => true
          | none =>
            match w.openFile with
            | Except.error _ => true
            | Except.ok _ => false

/-- The content-length header of the world's response, parsed as in the
source; `none` when the request fails or the header is absent or malformed. -/
def worldContentLength (w : World) : Option Nat :=
  match w.get with
  | some response => parsedContentLength response
  | none => none

/-- Erase the `interrupted` low-level write errors that `write_all` retries
silently. -/
def eraseWriteInterrupts (steps : List WriteStep) : List WriteStep :=
  steps.filter fun s => s ≠ WriteStep.err IoErrorKind.interrupted

/-- Whether a read outcome is the `interrupted` signal the loop retries. -/
def ReadEvent.isInterrupt : ReadEvent → Bool
  | ReadEvent.readErr k => k = IoErrorKind.interrupted
  | _ => false

/-- Erase the interrupted write errors inside one read outcome. -/
def ReadEvent.eraseInterrupts : ReadEvent → ReadEvent
  | ReadEvent.data bytes steps => ReadEvent.data bytes (eraseWriteInterrupts steps)
  | r => r

/-- Erase every interrupted signal from a stream: drop the interrupted reads
and the interrupted low-level write errors. -/
def eraseInterrupts (events : List LoopEvent) : List LoopEvent :=
  (events.filter fun e => !e.read.isInterrupt).map fun e =>
    { e with read := e.read.eraseInterrupts }

/-- Rust `struct DownloadProxy { download: Arc<Mutex<Download>> }`.  The
shared `Arc` is modelled as an index into the manager's heap of download
states, so that two proxies to the same state observe the same cell and a
registry overwrite leaves old proxies untouched. -/
structure DownloadProxy where
  download : Nat
deriving DecidableEq, Repr

/-- `DownloadProxy::is_pending`, reading the shared state through the heap. -/
def DownloadProxy.is_pending (heap : List Download) (p : DownloadProxy) : Bool :=
  match heap.get? p.download with
  | some d => d.status.is_pending
  | none => false

/-- `DownloadProxy::is_failed`, reading the shared state through the heap. -/
def DownloadProxy.is_failed (heap : List Download) (p : DownloadProxy) : Bool :=
  match heap.get? p.download with
  | some d => d.status.is_failed
  | none => false

/-- Rust `struct DownloadManager`: the registry `downloads` maps an output
path to the shared download state; the `Arc<Mutex<_>>` cells live in `heap`
and the registry holds their indices.  The rayon pool only schedules the
spawned `download_to_file` closures and is not part of the registry model. -/
structure DownloadManager where
  heap : List Download
  downloads : List (String × Nat)
deriving DecidableEq, Repr

/-- `DownloadManager::new()` with an empty registry. -/
def DownloadManager.new : DownloadManager :=
  { heap := [], downloads := [] }

/-- `HashMap::insert`: replace the value of an existing key, otherwise add
the binding. -/
def hmInsert (l : List (String × Nat)) (k : String) (v : Nat) : List (String × Nat) :=
  if l.any fun e => e.1 = k then
    l.map fun e => if e.1 = k then (k, v) else e
  else l ++ [(k, v)]

/-- Whether the registry entry `id` currently holds a failed download. -/
def heapFailed (heap : List Download) (id : Nat) : Bool :=
  match heap.get? id with
  | some d => d.status.is_failed
  | none => false

/-- `DownloadManager::get_download`: look the path up in the registry and
wrap the shared state into a proxy. -/
def DownloadManager.get_download (m : DownloadManager) (path : String) : Option DownloadProxy :=
  (m.downloads.lookup path).map fun id => { download := id }

/-- `DownloadManager::download(link, output)`: allocate a fresh `Pending`
state, register it under the output path (overwriting any previous entry) and
spawn `download_to_file` on the pool.  The spawned routine is modelled
separately by `download_to_file`; the call returns the new manager and the
index of the freshly allocated state. -/
def DownloadManager.download (m : DownloadManager) (_link : String) (output : String) :
    DownloadManager × Nat :=
  let id := m.heap.length
  ({ heap := m.heap ++ [Download.pending]
     downloads := hmInsert m.downloads output id }, id)

/-- `DownloadManager::has_active`: some registered download is pending or
running. -/
def DownloadManager.has_active (m : DownloadManager) : Bool :=
  m.downloads.any fun e =>
    match m.heap.get? e.2 with
    | some d => d.status.is_pending || d.status.is_running
    | none => false

/-- `DownloadManager::remove_failed`: collect proxies to every entry whose
status is `Failed`, then retain only the non-failed entries. -/
def DownloadManager.remove_failed (m : DownloadManager) : DownloadManager × List DownloadProxy :=
  let failed := (m.downloads.filter fun e => heapFailed m.heap e.2).map fun e =>
    ({ download := e.2 } : DownloadProxy)
  ({ m with downloads := m.downloads.filter fun e => !heapFailed m.heap e.2 }, failed)

/-- `DownloadManager::size`: the number of registered downloads. -/
def DownloadManager.size (m : DownloadManager) : Nat :=
  m.downloads.length

/-- A worker mutating the shared state at heap index `id` (for instance by
replaying a routine's mutation log); every other heap cell is untouched. -/
def DownloadManager.applyAt (m : DownloadManager) (id : Nat) (f : Download → Download) :
    DownloadManager :=
  { m with heap := m.heap.set id (f (m.heap.getD id Download.pending)) }

/-- A concrete destination path with one component, used by witnesses. -/
def pathF : RsPath := { absolute := false, components := ["f"] }

/-- The empty relative path, modelling Rust `Path::new("")`. -/
def pathEmpty : RsPath := { absolute := false, components := [] }

/-- A successful response carrying no content-length header. -/
def respNoLength : Response := { statusSuccess := true, contentLength := none }

/-- A response whose status is not a success. -/
def respBad : Response := { statusSuccess := false, contentLength := none }

/-- A world whose URL fails to parse. -/
def worldUrlFail : World :=
  { intoUrl := false, get := none, isDir := false, createDirAll := none,
    openFile := Except.ok [], events := [] }

/-- A world whose response has a non-success status. -/
def worldBadStatus : World :=
  { intoUrl := true, get := some respBad, isDir := false, createDirAll := none,
    openFile := Except.ok [], events := [] }

/-- A world that opens a pre-existing three-byte file and reads an immediate
end of stream. -/
def worldEmptyStream : World :=
  { intoUrl := true, get := some respNoLength, isDir := false, createDirAll := none,
    openFile := Except.ok [7, 7, 7],
    events := [{ elapsed := none, read := ReadEvent.eof }] }

/-- A world that opens a pre-existing three-byte file, streams a single byte
and then reaches the end of the stream. -/
def worldOneChunk : World :=
  { intoUrl := true, get := some respNoLength, isDir := false, createDirAll := none,
    openFile := Except.ok [7, 7, 7],
    events := [{ elapsed := none, read := ReadEvent.data [1] [WriteStep.wrote 1] },
      { elapsed := none, read := ReadEvent.eof }] }

/-- A world whose destination file fails to open. -/
def worldOpenFail : World :=
  { intoUrl := true, get := some respNoLength, isDir := false, createDirAll := none,
    openFile := Except.error IoErrorKind.other, events := [] }

theorem lastD_nil (a : α) : lastD [] a = a := rfl

theorem lastD_cons (x : α) (l : List α) (a : α) : lastD (x :: l) a = lastD l x := rfl

theorem lastD_append (l₁ l₂ : List α) (a : α) :
    lastD (l₁ ++ l₂) a = lastD l₂ (lastD l₁ a) := by
  simp [lastD, List.foldl_append]

theorem applyLog_nil (d : Download) : applyLog [] d = d := rfl

theorem applyLog_cons (e : MutEvent) (l : List MutEvent) (d : Download) :
    applyLog (e :: l) d = applyLog l (applyEvent d e) := rfl

theorem applyLog_append (l₁ l₂ : List MutEvent) (d : Download) :
    applyLog (l₁ ++ l₂) d = applyLog l₂ (applyLog l₁ d) := by
  simp [applyLog, List.foldl_append]

theorem status_applyLog (l : List MutEvent) (d : Download) :
    (applyLog l d).status = lastD (statusWrites l) d.status := by
  induction l generalizing d with
  | nil => rfl
  | cons e l ih =>
    cases e <;> simp [applyLog_cons, statusWrites, applyEvent, ih, lastD_cons]

theorem size_applyLog (l : List MutEvent) (d : Download) :
    (applyLog l d).downloaded_size = lastD (sizeWrites l) d.downloaded_size := by
  induction l generalizing d with
  | nil => rfl
  | cons e l ih =>
    cases e <;> simp [applyLog_cons, sizeWrites, applyEvent, ih, lastD_cons]

theorem total_applyLog (l : List MutEvent) (d : Download) :
    (applyLog l d).total_size = lastD ((totalWrites l).map some) d.total_size := by
  induction l generalizing d with
  | nil => rfl
  | cons e l ih =>
    cases e <;> simp [applyLog_cons, totalWrites, applyEvent, ih, lastD_cons]

theorem speed_applyLog (l : List MutEvent) (d : Download) :
    (applyLog l d).speed = lastD (speedWrites l) d.speed := by
  induction l generalizing d with
  | nil => rfl
  | cons e l ih =>
    cases e <;> simp [applyLog_cons, speedWrites, applyEvent, ih, lastD_cons]

theorem statusWrites_append (l₁ l₂ : List MutEvent) :
    statusWrites (l₁ ++ l₂) = statusWrites l₁ ++ statusWrites l₂ := by
  simp [statusWrites, List.filterMap_append]

theorem sizeWrites_append (l₁ l₂ : List MutEvent) :
    sizeWrites (l₁ ++ l₂) = sizeWrites l₁ ++ sizeWrites l₂ := by
  simp [sizeWrites, List.filterMap_append]

theorem totalWrites_append (l₁ l₂ : List MutEvent) :
    totalWrites (l₁ ++ l₂) = totalWrites l₁ ++ totalWrites l₂ := by
  simp [totalWrites, List.filterMap_append]

theorem nonSpeedWrites_append (l₁ l₂ : List MutEvent) :
    nonSpeedWrites (l₁ ++ l₂) = nonSpeedWrites l₁ ++ nonSpeedWrites l₂ := by
  simp [nonSpeedWrites, List.filter_append]

theorem statusWrites_speedSample (e : Option Nat) (w wu : Nat) :
    statusWrites (speedSample e w wu).1 = [] := by
  cases e with
  | none => rfl
  | some t =>
    by_cases h : DOWNLOAD_SPEED_INTERVAL_NS ≤ t <;> simp [speedSample, h, statusWrites]

theorem sizeWrites_speedSample (e : Option Nat) (w wu : Nat) :
    sizeWrites (speedSample e w wu).1 = [] := by
  cases e with
  | none => rfl
  | some t =>
    by_cases h : DOWNLOAD_SPEED_INTERVAL_NS ≤ t <;> simp [speedSample, h, sizeWrites]

theorem totalWrites_speedSample (e : Option Nat) (w wu : Nat) :
    totalWrites (speedSample e w wu).1 = [] := by
  cases e with
  | none => rfl
  | some t =>
    by_cases h : DOWNLOAD_SPEED_INTERVAL_NS ≤ t <;> simp [speedSample, h, totalWrites]

theorem nonSpeedWrites_speedSample (e : Option Nat) (w wu : Nat) :
    nonSpeedWrites (speedSample e w wu).1 = [] := by
  cases e with
  | none => rfl
  | some t =>
    by_cases h : DOWNLOAD_SPEED_INTERVAL_NS ≤ t <;> simp [speedSample, h, nonSpeedWrites]

theorem statusWrites_single (s : DownloadStatus) : statusWrites [MutEvent.setStatus s] = [s] := rfl

theorem statusWrites_size_cons (n : Nat) (l : List MutEvent) :
    statusWrites (MutEvent.setDownloadedSize n :: l) = statusWrites l := rfl

/-- The streaming loop's status writes: nothing unless it fails, and exactly
one `Failed` io error if it does. -/
theorem streamLoop_status (evts : List LoopEvent) (written wu : Nat) (acc : List Nat) :
    (statusWrites (streamLoop evts written wu acc).log = []
        ∧ (streamLoop evts written wu acc).out ≠ LoopOut.failed)
    ∨ (∃ k, statusWrites (streamLoop evts written wu acc).log
          = [DownloadStatus.failed (DownloadError.ioError k)]
        ∧ (streamLoop evts written wu acc).out = LoopOut.failed) := by
  induction evts generalizing written wu acc with
  | nil => exact Or.inl ⟨rfl, by simp [streamLoop]⟩
  | cons e rest ih =>
    simp only [streamLoop]
    cases hr : e.read with
    | eof =>
      exact Or.inl ⟨by simp [statusWrites_speedSample], by simp⟩
    | readErr k =>
      by_cases hk : k = IoErrorKind.interrupted
      · simp only [hk, if_pos rfl]
        rcases ih written (speedSample e.elapsed written wu).2 acc with ⟨h1, h2⟩ | ⟨k', h1, h2⟩
        · exact Or.inl ⟨by simp [statusWrites_append, statusWrites_speedSample, h1], by simpa using h2⟩
        · exact Or.inr ⟨k', by simp [statusWrites_append, statusWrites_speedSample, h1], by simpa using h2⟩
      · simp only [if_neg hk]
        refine Or.inr ⟨k, ?_, by simp⟩
        rw [statusWrites_append, statusWrites_speedSample, statusWrites_single]
        rfl
    | data bytes steps =>
      by_cases hb : bytes.length = 0
      · simp only [if_pos hb]
        exact Or.inl ⟨by simp [statusWrites_speedSample], by simp⟩
      · simp only [if_neg hb]
        cases hw : write_all steps bytes.length with
        | none => exact Or.inl ⟨by simp [statusWrites_speedSample], by simp⟩
        | some o =>
          cases o with
          | none =>
            rcases ih (written + bytes.length) (speedSample e.elapsed written wu).2 (acc ++ bytes)
              with ⟨h1, h2⟩ | ⟨k', h1, h2⟩
            · refine Or.inl ⟨?_, by simpa using h2⟩
              rw [statusWrites_append, statusWrites_append, statusWrites_speedSample, h1]
              rfl
            · refine Or.inr ⟨k', ?_, by simpa using h2⟩
              rw [statusWrites_append, statusWrites_append, statusWrites_speedSample, h1]
              rfl
          | some k =>
            refine Or.inr ⟨k, ?_, by simp⟩
            rw [statusWrites_append, statusWrites_speedSample, statusWrites_single]
            rfl

/-- The streaming loop never writes `total_size`. -/
theorem streamLoop_total (evts : List LoopEvent) (written wu : Nat) (acc : List Nat) :
    totalWrites (streamLoop evts written wu acc).log = [] := by
  induction evts generalizing written wu acc with
  | nil => rfl
  | cons e rest ih =>
    obtain ⟨el, rd⟩ := e
    cases rd with
    | eof => simp [streamLoop, totalWrites_speedSample]
    | readErr k =>
      by_cases hk : k = IoErrorKind.interrupted
      · simp only [streamLoop, if_pos hk]
        rw [totalWrites_append, totalWrites_speedSample, ih]
        rfl
      · simp only [streamLoop, if_neg hk]
        rw [totalWrites_append, totalWrites_speedSample]
        rfl
    | data bytes steps =>
      by_cases hb : bytes.length = 0
      · simp only [streamLoop, if_pos hb]
        exact totalWrites_speedSample _ _ _
      · simp only [streamLoop, if_neg hb]
        cases hw : write_all steps bytes.length with
        | none => exact totalWrites_speedSample _ _ _
        | some o =>
          cases o with
          | none =>
            rw [totalWrites_append, totalWrites_append, totalWrites_speedSample, ih]
            rfl
          | some k =>
            rw [totalWrites_append, totalWrites_speedSample]
            rfl

/-- The last `downloaded_size` value the streaming loop publishes is its
final `written` counter (or the previous value if it publishes nothing). -/
theorem streamLoop_size (evts : List LoopEvent) (written wu : Nat) (acc : List Nat) :
    lastD (sizeWrites (streamLoop evts written wu acc).log) written
      = (streamLoop evts written wu acc).written := by
  induction evts generalizing written wu acc with
  | nil => rfl
  | cons e rest ih =>
    obtain ⟨el, rd⟩ := e
    cases rd with
    | eof => simp [streamLoop, sizeWrites_speedSample, lastD_nil]
    | readErr k =>
      by_cases hk : k = IoErrorKind.interrupted
      · simp only [streamLoop, if_pos hk]
        rw [sizeWrites_append, sizeWrites_speedSample, List.nil_append]
        exact ih _ _ _
      · simp only [streamLoop, if_neg hk]
        rw [sizeWrites_append, sizeWrites_speedSample]
        rfl
    | data bytes steps =>
      by_cases hb : bytes.length = 0
      · simp only [streamLoop, if_pos hb]
        rw [sizeWrites_speedSample]
        rfl
      · simp only [streamLoop, if_neg hb]
        cases hw : write_all steps bytes.length with
        | none =>
          rw [sizeWrites_speedSample]
          rfl
        | some o =>
          cases o with
          | none =>
            rw [sizeWrites_append, sizeWrites_append, sizeWrites_speedSample, List.nil_append]
            have hsw : sizeWrites [MutEvent.setDownloadedSize (written + bytes.length)]
                = [written + bytes.length] := rfl
            rw [hsw, List.cons_append, List.nil_append, lastD_cons]
            exact ih _ _ _
          | some k =>
            rw [sizeWrites_append, sizeWrites_speedSample]
            rfl

/-- The streaming loop's `written` counter equals the number of bytes written
to the file, provided it starts in sync with the accumulated bytes. -/
theorem streamLoop_written (evts : List LoopEvent) (written wu : Nat) (acc : List Nat)
    (h : written = acc.length) :
    (streamLoop evts written wu acc).written = (streamLoop evts written wu acc).bytes.length := by
  induction evts generalizing written wu acc with
  | nil => simpa [streamLoop] using h
  | cons e rest ih =>
    obtain ⟨el, rd⟩ := e
    cases rd with
    | eof => simpa [streamLoop] using h
    | readErr k =>
      by_cases hk : k = IoErrorKind.interrupted
      · simp only [streamLoop, if_pos hk]
        exact ih _ _ _ h
      · simp only [streamLoop, if_neg hk]
        exact h
    | data bytes steps =>
      by_cases hb : bytes.length = 0
      · simp only [streamLoop, if_pos hb]
        exact h
      · simp only [streamLoop, if_neg hb]
        cases hw : write_all steps bytes.length with
        | none => exact h
        | some o =>
          cases o with
          | none =>
            have hq : written + bytes.length = (acc ++ bytes).length := by
              simp [h]
            exact ih _ _ _ hq
          | some k => exact h

/-- `write_all` on an empty buffer succeeds immediately. -/
theorem write_all_zero (steps : List WriteStep) : write_all steps 0 = some none := by
  cases steps with
  | nil => rfl
  | cons s rest => cases s <;> rfl

/-- `write_all` ignores interrupted low-level write errors: erasing them does
not change its result. -/
theorem write_all_erase (steps : List WriteStep) (n : Nat) :
    write_all (eraseWriteInterrupts steps) n = write_all steps n := by
  induction steps generalizing n with
  | nil => rfl
  | cons s rest ih =>
    cases s with
    | wrote m =>
      have he : eraseWriteInterrupts (WriteStep.wrote m :: rest)
          = WriteStep.wrote m :: eraseWriteInterrupts rest := by
        simp [eraseWriteInterrupts]
      cases n with
      | zero => rw [write_all_zero, write_all_zero]
      | succ n0 =>
        rw [he]
        by_cases hm : m = 0
        · simp [write_all, hm]
        · simp only [write_all, if_neg hm]
          exact ih _
    | err k =>
      by_cases hk : k = IoErrorKind.interrupted
      · have he : eraseWriteInterrupts (WriteStep.err k :: rest) = eraseWriteInterrupts rest := by
          simp [eraseWriteInterrupts, hk]
        cases n with
        | zero => rw [write_all_zero, write_all_zero]
        | succ n0 =>
          rw [he, ih]
          simp [write_all, hk]
      · have he : eraseWriteInterrupts (WriteStep.err k :: rest)
            = WriteStep.err k :: eraseWriteInterrupts rest := by
          simp [eraseWriteInterrupts, hk]
        cases n with
        | zero => rw [write_all_zero, write_all_zero]
        | succ n0 => simp [he, write_all, hk]

theorem eraseInterrupts_nil : eraseInterrupts [] = [] := rfl

/-- Erasure drops an interrupted read. -/
theorem eraseInterrupts_cons_drop (e : LoopEvent) (rest : List LoopEvent)
    (h : e.read.isInterrupt = true) :
    eraseInterrupts (e :: rest) = eraseInterrupts rest := by
  simp [eraseInterrupts, h]

/-- Erasure keeps a non-interrupted event, erasing the interrupted write
errors inside it. -/
theorem eraseInterrupts_cons_keep (e : LoopEvent) (rest : List LoopEvent)
    (h : e.read.isInterrupt = false) :
    eraseInterrupts (e :: rest)
      = { e with read := e.read.eraseInterrupts } :: eraseInterrupts rest := by
  simp [eraseInterrupts, h]

theorem nonSpeedWrites_single_status (s : DownloadStatus) :
    nonSpeedWrites [MutEvent.setStatus s] = [MutEvent.setStatus s] := rfl

theorem nonSpeedWrites_size_cons (n : Nat) (l : List MutEvent) :
    nonSpeedWrites (MutEvent.setDownloadedSize n :: l)
      = MutEvent.setDownloadedSize n :: nonSpeedWrites l := rfl

theorem statusWrites_nonSpeed (l : List MutEvent) :
    statusWrites (nonSpeedWrites l) = statusWrites l := by
  induction l with
  | nil => rfl
  | cons e l ih => cases e <;> simp [nonSpeedWrites, statusWrites] at ih ⊢ <;> exact ih

theorem sizeWrites_nonSpeed (l : List MutEvent) :
    sizeWrites (nonSpeedWrites l) = sizeWrites l := by
  induction l with
  | nil => rfl
  | cons e l ih => cases e <;> simp [nonSpeedWrites, sizeWrites] at ih ⊢ <;> exact ih

/-- Interruption insensitivity of the streaming loop: erasing the interrupted
read signals and the interrupted low-level write errors changes at most the
speed samples — the non-speed mutations, the outcome, the byte counter and
the file bytes all coincide.  The baselines `wu` and `wu2` may differ because
erased iterations can have reset the baseline, which only influences speed
values. -/
theorem streamLoop_erase (evts : List LoopEvent) (written wu wu2 : Nat) (acc : List Nat) :
    nonSpeedWrites (streamLoop (eraseInterrupts evts) written wu2 acc).log
        = nonSpeedWrites (streamLoop evts written wu acc).log
      ∧ (streamLoop (eraseInterrupts evts) written wu2 acc).out
        = (streamLoop evts written wu acc).out
      ∧ (streamLoop (eraseInterrupts evts) written wu2 acc).written
        = (streamLoop evts written wu acc).written
      ∧ (streamLoop (eraseInterrupts evts) written wu2 acc).bytes
        = (streamLoop evts written wu acc).bytes := by
  induction evts generalizing written wu wu2 acc with
  | nil => exact ⟨rfl, rfl, rfl, rfl⟩
  | cons e rest ih =>
    obtain ⟨el, rd⟩ := e
    cases rd with
    | eof =>
      rw [eraseInterrupts_cons_keep { elapsed := el, read := ReadEvent.eof } rest rfl]
      refine ⟨?_, ?_, ?_, ?_⟩ <;>
        simp [streamLoop, ReadEvent.eraseInterrupts, nonSpeedWrites_speedSample]
    | readErr k =>
      by_cases hk : k = IoErrorKind.interrupted
      · rw [eraseInterrupts_cons_drop _ _ (by simp [ReadEvent.isInterrupt, hk])]
        rcases ih written (speedSample el written wu).2 wu2 acc with ⟨h1, h2, h3, h4⟩
        refine ⟨?_, ?_, ?_, ?_⟩ <;>
          simp [streamLoop, hk, nonSpeedWrites_append, nonSpeedWrites_speedSample, h1, h2, h3, h4]
      · rw [eraseInterrupts_cons_keep _ _ (by simp [ReadEvent.isInterrupt, hk])]
        refine ⟨?_, ?_, ?_, ?_⟩ <;>
          simp [streamLoop, ReadEvent.eraseInterrupts, hk, nonSpeedWrites_append,
            nonSpeedWrites_speedSample, nonSpeedWrites_single_status]
    | data bytes steps =>
      rw [eraseInterrupts_cons_keep { elapsed := el, read := ReadEvent.data bytes steps } rest rfl]
      by_cases hb : bytes.length = 0
      · refine ⟨?_, ?_, ?_, ?_⟩ <;>
          simp [streamLoop, ReadEvent.eraseInterrupts, hb, nonSpeedWrites_speedSample]
      · cases hw : write_all steps bytes.length with
        | none =>
          refine ⟨?_, ?_, ?_, ?_⟩ <;>
            simp [streamLoop, ReadEvent.eraseInterrupts, hb, write_all_erase, hw,
              nonSpeedWrites_speedSample]
        | some o =>
          cases o with
          | none =>
            rcases ih (written + bytes.length) (speedSample el written wu).2
              (speedSample el written wu2).2 (acc ++ bytes) with ⟨h1, h2, h3, h4⟩
            refine ⟨?_, ?_, ?_, ?_⟩ <;>
              simp [streamLoop, ReadEvent.eraseInterrupts, hb, write_all_erase, hw,
                nonSpeedWrites_append, nonSpeedWrites_speedSample, nonSpeedWrites_size_cons,
                h1, h2, h3, h4]
          | some k =>
            refine ⟨?_, ?_, ?_, ?_⟩ <;>
              simp [streamLoop, ReadEvent.eraseInterrupts, hb, write_all_erase, hw,
                nonSpeedWrites_append, nonSpeedWrites_speedSample, nonSpeedWrites_single_status]

theorem statusWrites_clPart (o : Option Nat) : statusWrites (clPart o) = [] := by
  cases o <;> rfl

theorem sizeWrites_clPart (o : Option Nat) : sizeWrites (clPart o) = [] := by
  cases o <;> rfl

theorem speedWrites_clPart (o : Option Nat) : speedWrites (clPart o) = [] := by
  cases o <;> rfl

theorem totalWrites_clPart (o : Option Nat) : totalWrites (clPart o) = o.toList := by
  cases o <;> rfl

/-- Branch equation: URL parsing fails. -/
theorem download_eq_url (output : RsPath) (w : World) (h : w.intoUrl = false) :
    download_to_file output w
      = { log := [MutEvent.setStatus DownloadStatus.running,
            fail_download DownloadError.reqwestError]
          outcome := RoutineOutcome.returned, file := none } := by
  simp [download_to_file, h]

/-- Branch equation: the request fails. -/
theorem download_eq_get (output : RsPath) (w : World) (h1 : w.intoUrl = true)
    (h2 : w.get = none) :
    download_to_file output w
      = { log := [MutEvent.setStatus DownloadStatus.running,
            fail_download DownloadError.reqwestError]
          outcome := RoutineOutcome.returned, file := none } := by
  simp [download_to_file, h1, h2]

/-- Branch equation: the response status is not a success. -/
theorem download_eq_status (output : RsPath) (w : World) (resp : Response)
    (h1 : w.intoUrl = true) (h2 : w.get = some resp) (h3 : resp.statusSuccess = false) :
    download_to_file output w
      = { log := [MutEvent.setStatus DownloadStatus.running,
            fail_download (DownloadError.ioError IoErrorKind.invalidInput)]
          outcome := RoutineOutcome.returned, file := none } := by
  simp [download_to_file, h1, h2, h3]

/-- Branch equation: the destination is a directory. -/
theorem download_eq_isDir (output : RsPath) (w : World) (resp : Response)
    (h1 : w.intoUrl = true) (h2 : w.get = some resp) (h3 : resp.statusSuccess = true)
    (h4 : w.isDir = true) :
    download_to_file output w
      = { log := MutEvent.setStatus DownloadStatus.running :: clPart (parsedContentLength resp)
            ++ [fail_download (DownloadError.ioError IoErrorKind.invalidInput)]
          outcome := RoutineOutcome.returned, file := none } := by
  simp [download_to_file, h1, h2, h3, h4]

/-- Branch equation: the destination has no parent path and the routine hits
the `expect` panic. -/
theorem download_eq_parent (output : RsPath) (w : World) (resp : Response)
    (h1 : w.intoUrl = true) (h2 : w.get = some resp) (h3 : resp.statusSuccess = true)
    (h4 : w.isDir = false) (h5 : output.parent = none) :
    download_to_file output w
      = { log := MutEvent.setStatus DownloadStatus.running :: clPart (parsedContentLength resp)
          outcome := RoutineOutcome.panicked, file := none } := by
  simp [download_to_file, h1, h2, h3, h4, h5]

/-- Branch equation: creating the parent directories fails. -/
theorem download_eq_mkdir (output : RsPath) (w : World) (resp : Response) (pp : RsPath)
    (k : IoErrorKind) (h1 : w.intoUrl = true) (h2 : w.get = some resp)
    (h3 : resp.statusSuccess = true) (h4 : w.isDir = false) (h5 : output.parent = some pp)
    (h6 : w.createDirAll = some k) :
    download_to_file output w
      = { log := MutEvent.setStatus DownloadStatus.running :: clPart (parsedContentLength resp)
            ++ [fail_download (DownloadError.ioError k)]
          outcome := RoutineOutcome.returned, file := none } := by
  simp [download_to_file, h1, h2, h3, h4, h5, h6]

/-- Branch equation: opening the destination file fails. -/
theorem download_eq_open (output : RsPath) (w : World) (resp : Response) (pp : RsPath)
    (k : IoErrorKind) (h1 : w.intoUrl = true) (h2 : w.get = some resp)
    (h3 : resp.statusSuccess = true) (h4 : w.isDir = false) (h5 : output.parent = some pp)
    (h6 : w.createDirAll = none) (h7 : w.openFile = Except.error k) :
    download_to_file output w
      = { log := MutEvent.setStatus DownloadStatus.running :: clPart (parsedContentLength resp)
            ++ [fail_download (DownloadError.ioError k)]
          outcome := RoutineOutcome.returned, file := none } := by
  simp [download_to_file, h1, h2, h3, h4, h5, h6, h7]

/-- Branch equation: the streaming loop runs and ends the stream. -/
theorem download_eq_loop_success (output : RsPath) (w : World) (resp : Response) (pp : RsPath)
    (old : List Nat) (h1 : w.intoUrl = true) (h2 : w.get = some resp)
    (h3 : resp.statusSuccess = true) (h4 : w.isDir = false) (h5 : output.parent = some pp)
    (h6 : w.createDirAll = none) (h7 : w.openFile = Except.ok old)
    (h8 : (streamLoop w.events 0 0 []).out = LoopOut.success) :
    download_to_file output w
      = { log := MutEvent.setStatus DownloadStatus.running :: clPart (parsedContentLength resp)
            ++ (streamLoop w.events 0 0 []).log ++ [MutEvent.setStatus DownloadStatus.successful]
          outcome := RoutineOutcome.returned
          file := some { old := old, written := (streamLoop w.events 0 0 []).bytes } } := by
  simp [download_to_file, h1, h2, h3, h4, h5, h6, h7, h8]

/-- Branch equation: the streaming loop fails. -/
theorem download_eq_loop_failed (output : RsPath) (w : World) (resp : Response) (pp : RsPath)
    (old : List Nat) (h1 : w.intoUrl = true) (h2 : w.get = some resp)
    (h3 : resp.statusSuccess = true) (h4 : w.isDir = false) (h5 : output.parent = some pp)
    (h6 : w.createDirAll = none) (h7 : w.openFile = Except.ok old)
    (h8 : (streamLoop w.events 0 0 []).out = LoopOut.failed) :
    download_to_file output w
      = { log := MutEvent.setStatus DownloadStatus.running :: clPart (parsedContentLength resp)
            ++ (streamLoop w.events 0 0 []).log
          outcome := RoutineOutcome.returned
          file := some { old := old, written := (streamLoop w.events 0 0 []).bytes } } := by
  simp [download_to_file, h1, h2, h3, h4, h5, h6, h7, h8]

/-- Branch equation: the streaming loop exhausts its oracle. -/
theorem download_eq_loop_stuck (output : RsPath) (w : World) (resp : Response) (pp : RsPath)
    (old : List Nat) (h1 : w.intoUrl = true) (h2 : w.get = some resp)
    (h3 : resp.statusSuccess = true) (h4 : w.isDir = false) (h5 : output.parent = some pp)
    (h6 : w.createDirAll = none) (h7 : w.openFile = Except.ok old)
    (h8 : (streamLoop w.events 0 0 []).out = LoopOut.stuck) :
    download_to_file output w
      = { log := MutEvent.setStatus DownloadStatus.running :: clPart (parsedContentLength resp)
            ++ (streamLoop w.events 0 0 []).log
          outcome := RoutineOutcome.stuck
          file := some { old := old, written := (streamLoop w.events 0 0 []).bytes } } := by
  simp [download_to_file, h1, h2, h3, h4, h5, h6, h7, h8]

/-- Case analysis on a run of the transfer routine: every run is one of the
ten branch shapes, so a property holding on each shape holds of the run. -/
theorem download_rec (output : RsPath) (w : World) (P : RunResult → Prop)
    (hA : w.intoUrl = false →
      P { log := [MutEvent.setStatus DownloadStatus.running,
            fail_download DownloadError.reqwestError]
          outcome := RoutineOutcome.returned, file := none })
    (hB : w.intoUrl = true → w.get = none →
      P { log := [MutEvent.setStatus DownloadStatus.running,
            fail_download DownloadError.reqwestError]
          outcome := RoutineOutcome.returned, file := none })
    (hC : ∀ resp, w.intoUrl = true → w.get = some resp → resp.statusSuccess = false →
      P { log := [MutEvent.setStatus DownloadStatus.running,
            fail_download (DownloadError.ioError IoErrorKind.invalidInput)]
          outcome := RoutineOutcome.returned, file := none })
    (hD : ∀ resp, w.intoUrl = true → w.get = some resp → resp.statusSuccess = true →
      w.isDir = true →
      P { log := MutEvent.setStatus DownloadStatus.running :: clPart (parsedContentLength resp)
            ++ [fail_download (DownloadError.ioError IoErrorKind.invalidInput)]
          outcome := RoutineOutcome.returned, file := none })
    (hE : ∀ resp, w.intoUrl = true → w.get = some resp → resp.statusSuccess = true →
      w.isDir = false → output.parent = none →
      P { log := MutEvent.setStatus DownloadStatus.running :: clPart (parsedContentLength resp)
          outcome := RoutineOutcome.panicked, file := none })
    (hF : ∀ resp pp k, w.intoUrl = true → w.get = some resp → resp.statusSuccess = true →
      w.isDir = false → output.parent = some pp → w.createDirAll = some k →
      P { log := MutEvent.setStatus DownloadStatus.running :: clPart (parsedContentLength resp)
            ++ [fail_download (DownloadError.ioError k)]
          outcome := RoutineOutcome.returned, file := none })
    (hG : ∀ resp pp k, w.intoUrl = true → w.get = some resp → resp.statusSuccess = true →
      w.isDir = false → output.parent = some pp → w.createDirAll = none →
      w.openFile = Except.error k →
      P { log := MutEvent.setStatus DownloadStatus.running :: clPart (parsedContentLength resp)
            ++ [fail_download (DownloadError.ioError k)]
          outcome := RoutineOutcome.returned, file := none })
    (hH1 : ∀ resp pp old, w.intoUrl = true → w.get = some resp → resp.statusSuccess = true →
      w.isDir = false → output.parent = some pp → w.createDirAll = none →
      w.openFile = Except.ok old → (streamLoop w.events 0 0 []).out = LoopOut.success →
      P { log := MutEvent.setStatus DownloadStatus.running :: clPart (parsedContentLength resp)
            ++ (streamLoop w.events 0 0 []).log
            ++ [MutEvent.setStatus DownloadStatus.successful]
          outcome := RoutineOutcome.returned
          file := some { old := old, written := (streamLoop w.events 0 0 []).bytes } })
    (hH2 : ∀ resp pp old, w.intoUrl = true → w.get = some resp → resp.statusSuccess = true →
      w.isDir = false → output.parent = some pp → w.createDirAll = none →
      w.openFile = Except.ok old → (streamLoop w.events 0 0 []).out = LoopOut.failed →
      P { log := MutEvent.setStatus DownloadStatus.running :: clPart (parsedContentLength resp)
            ++ (streamLoop w.events 0 0 []).log
          outcome := RoutineOutcome.returned
          file := some { old := old, written := (streamLoop w.events 0 0 []).bytes } })
    (hH3 : ∀ resp pp old, w.intoUrl = true → w.get = some resp → resp.statusSuccess = true →
      w.isDir = false → output.parent = some pp → w.createDirAll = none →
      w.openFile = Except.ok old → (streamLoop w.events 0 0 []).out = LoopOut.stuck →
      P { log := MutEvent.setStatus DownloadStatus.running :: clPart (parsedContentLength resp)
            ++ (streamLoop w.events 0 0 []).log
          outcome := RoutineOutcome.stuck
          file := some { old := old, written := (streamLoop w.events 0 0 []).bytes } }) :
    P (download_to_file output w) := by
  cases hu : w.intoUrl with
  | false => rw [download_eq_url output w hu]; exact hA hu
  | true =>
    cases hg : w.get with
    | none => rw [download_eq_get output w hu hg]; exact hB hu hg
    | some resp =>
      cases hs : resp.statusSuccess with
      | false => rw [download_eq_status output w resp hu hg hs]; exact hC resp hu hg hs
      | true =>
        cases hd : w.isDir with
        | true => rw [download_eq_isDir output w resp hu hg hs hd]; exact hD resp hu hg hs hd
        | false =>
          cases hp : output.parent with
          | none =>
            rw [download_eq_parent output w resp hu hg hs hd hp]
            exact hE resp hu hg hs hd hp
          | some pp =>
            cases hc : w.createDirAll with
            | some k =>
              rw [download_eq_mkdir output w resp pp k hu hg hs hd hp hc]
              exact hF resp pp k hu hg hs hd hp hc
            | none =>
              cases ho : w.openFile with
              | error k =>
                rw [download_eq_open output w resp pp k hu hg hs hd hp hc ho]
                exact hG resp pp k hu hg hs hd hp hc ho
              | ok old =>
                cases hout : (streamLoop w.events 0 0 []).out with
                | success =>
                  rw [download_eq_loop_success output w resp pp old hu hg hs hd hp hc ho hout]
                  exact hH1 resp pp old hu hg hs hd hp hc ho hout
                | failed =>
                  rw [download_eq_loop_failed output w resp pp old hu hg hs hd hp hc ho hout]
                  exact hH2 resp pp old hu hg hs hd hp hc ho hout
                | stuck =>
                  rw [download_eq_loop_stuck output w resp pp old hu hg hs hd hp hc ho hout]
                  exact hH3 resp pp old hu hg hs hd hp hc ho hout

theorem statusWrites_status_cons (st : DownloadStatus) (l : List MutEvent) :
    statusWrites (MutEvent.setStatus st :: l) = st :: statusWrites l := rfl

/-- The transfer routine writes `Running` first and then at most one further
status, which is terminal. -/
theorem download_statusWrites (output : RsPath) (w : World) :
    statusWrites (download_to_file output w).log = [DownloadStatus.running]
    ∨ ∃ s, s.isTerminal = true
        ∧ statusWrites (download_to_file output w).log = [DownloadStatus.running, s] := by
  refine download_rec output w (fun r => statusWrites r.log = [DownloadStatus.running]
    ∨ ∃ s, s.isTerminal = true ∧ statusWrites r.log = [DownloadStatus.running, s])
    ?_ ?_ ?_ ?_ ?_ ?_ ?_ ?_ ?_ ?_
  · exact fun _ => Or.inr ⟨DownloadStatus.failed DownloadError.reqwestError, rfl, rfl⟩
  · exact fun _ _ => Or.inr ⟨DownloadStatus.failed DownloadError.reqwestError, rfl, rfl⟩
  · exact fun _ _ _ _ =>
      Or.inr ⟨DownloadStatus.failed (DownloadError.ioError IoErrorKind.invalidInput), rfl, rfl⟩
  · intro resp _ _ _ _
    refine Or.inr ⟨DownloadStatus.failed (DownloadError.ioError IoErrorKind.invalidInput), rfl, ?_⟩
    simp only [statusWrites_status_cons, statusWrites_append, statusWrites_clPart]
    rfl
  · intro resp _ _ _ _ _
    refine Or.inl ?_
    simp only [statusWrites_status_cons, statusWrites_clPart]
  · intro resp pp k _ _ _ _ _ _
    refine Or.inr ⟨DownloadStatus.failed (DownloadError.ioError k), rfl, ?_⟩
    simp only [statusWrites_status_cons, statusWrites_append, statusWrites_clPart]
    rfl
  · intro resp pp k _ _ _ _ _ _ _
    refine Or.inr ⟨DownloadStatus.failed (DownloadError.ioError k), rfl, ?_⟩
    simp only [statusWrites_status_cons, statusWrites_append, statusWrites_clPart]
    rfl
  · intro resp pp old _ _ _ _ _ _ _ hout
    rcases streamLoop_status w.events 0 0 [] with ⟨hs1, hs2⟩ | ⟨k, hs1, hs2⟩
    · refine Or.inr ⟨DownloadStatus.successful, rfl, ?_⟩
      simp only [statusWrites_status_cons, statusWrites_append, statusWrites_append,
        statusWrites_clPart, hs1]
      rfl
    · rw [hs2] at hout
      exact absurd hout (by simp)
  · intro resp pp old _ _ _ _ _ _ _ hout
    rcases streamLoop_status w.events 0 0 [] with ⟨hs1, hs2⟩ | ⟨k, hs1, hs2⟩
    · exact absurd hout hs2
    · refine Or.inr ⟨DownloadStatus.failed (DownloadError.ioError k), rfl, ?_⟩
      simp only [statusWrites_status_cons, statusWrites_append, statusWrites_clPart, hs1]
      rfl
  · intro resp pp old _ _ _ _ _ _ _ hout
    rcases streamLoop_status w.events 0 0 [] with ⟨hs1, hs2⟩ | ⟨k, hs1, hs2⟩
    · refine Or.inl ?_
      simp only [statusWrites_status_cons, statusWrites_append, statusWrites_clPart, hs1]
      rfl
    · rw [hs2] at hout
      exact absurd hout (by simp)

/-- The transfer routine's very first mutation marks the state `Running`. -/
theorem download_log_head (output : RsPath) (w : World) :
    (download_to_file output w).log.head? = some (MutEvent.setStatus DownloadStatus.running) := by
  refine download_rec output w
    (fun r => r.log.head? = some (MutEvent.setStatus DownloadStatus.running))
    ?_ ?_ ?_ ?_ ?_ ?_ ?_ ?_ ?_ ?_ <;>
    intros <;> rfl

/-- Claim C1: the observable status sequence of every download — the initial
`Pending` of the freshly registered state followed by every status the
transfer routine writes — is a prefix of the chain
`Pending → Running → terminal`, and a terminal status, once written, is never
followed by another status write. -/
theorem claim1_status_chain (output : RsPath) (w : World) :
    DownloadStatus.pending :: statusWrites (download_to_file output w).log
        = [DownloadStatus.pending, DownloadStatus.running]
    ∨ ∃ s, s.isTerminal = true
        ∧ DownloadStatus.pending :: statusWrites (download_to_file output w).log
          = [DownloadStatus.pending, DownloadStatus.running, s] := by
  rcases download_statusWrites output w with h | ⟨s, hs, h⟩
  · exact Or.inl (by rw [h])
  · exact Or.inr ⟨s, hs, by rw [h]⟩

/-- A destination with a parent never reaches the `expect` panic. -/
theorem download_noPanic (output : RsPath) (w : World)
    (h : (RsPath.parent output).isSome = true) :
    (download_to_file output w).outcome ≠ RoutineOutcome.panicked := by
  refine download_rec output w (fun r => r.outcome ≠ RoutineOutcome.panicked)
    ?_ ?_ ?_ ?_ ?_ ?_ ?_ ?_ ?_ ?_ <;> intros <;> try simp
  next resp _ _ _ _ hp =>
    rw [hp] at h
    exact absurd h (by simp)

/-- A run whose final status is `Failed` returned normally (it neither
panicked nor ran out of oracle). -/
theorem download_failed_returned (output : RsPath) (w : World)
    (h : (finalDownload (download_to_file output w)).status.is_failed = true) :
    (download_to_file output w).outcome = RoutineOutcome.returned := by
  revert h
  unfold finalDownload
  refine download_rec output w
    (fun r => (applyLog r.log Download.pending).status.is_failed = true
      → r.outcome = RoutineOutcome.returned) ?_ ?_ ?_ ?_ ?_ ?_ ?_ ?_ ?_ ?_
  · intro _ _
    rfl
  · intro _ _ _
    rfl
  · intro _ _ _ _ _
    rfl
  · intro _ _ _ _ _ _
    rfl
  · intro resp _ _ _ _ _ hf
    exfalso
    simp only [status_applyLog, statusWrites_status_cons, statusWrites_clPart] at hf
    simp [lastD, DownloadStatus.is_failed] at hf
  · intro _ _ _ _ _ _ _ _ _ _
    rfl
  · intro _ _ _ _ _ _ _ _ _ _ _
    rfl
  · intro _ _ _ _ _ _ _ _ _ _ _ _
    rfl
  · intro _ _ _ _ _ _ _ _ _ _ _ _
    rfl
  · intro resp pp old _ _ _ _ _ _ _ hout hf
    exfalso
    rcases streamLoop_status w.events 0 0 [] with ⟨hs1, hs2⟩ | ⟨k, hs1, hs2⟩
    · simp only [status_applyLog, statusWrites_status_cons, statusWrites_append,
        statusWrites_clPart, hs1] at hf
      simp [lastD, DownloadStatus.is_failed] at hf
    · rw [hs2] at hout
      exact absurd hout (by simp)

theorem isTerminal_running : DownloadStatus.running.isTerminal = false := rfl

/-- Claim C9 (amended): for every destination path that has a parent
component, the transfer routine never panics: every error path sets the
terminal `Failed` status exactly once and then returns normally.  (For a
parentless destination such as the empty path the `expect` abort is
reachable, see the counterexample.) -/
theorem claim9_no_panic (output : RsPath) (w : World)
    (h : (RsPath.parent output).isSome = true) :
    (download_to_file output w).outcome ≠ RoutineOutcome.panicked
    ∧ (terminalWrites (download_to_file output w).log).length ≤ 1
    ∧ ((finalDownload (download_to_file output w)).status.is_failed = true →
        (download_to_file output w).outcome = RoutineOutcome.returned
        ∧ terminalWrites (download_to_file output w).log
          = [(finalDownload (download_to_file output w)).status]) := by
  refine ⟨download_noPanic output w h, ?_, ?_⟩
  · rcases download_statusWrites output w with hs | ⟨t, hst, hs⟩
    · simp [terminalWrites, hs, DownloadStatus.isTerminal]
    · simp [terminalWrites, hs, hst, isTerminal_running]
  · intro hf
    refine ⟨download_failed_returned output w hf, ?_⟩
    rcases download_statusWrites output w with hs | ⟨t, hst, hs⟩
    · exfalso
      rw [finalDownload, status_applyLog, hs] at hf
      simp [lastD, DownloadStatus.is_failed] at hf
    · have hfs : (finalDownload (download_to_file output w)).status = t := by
        rw [finalDownload, status_applyLog, hs]
        simp [lastD]
      rw [hfs]
      simp [terminalWrites, hs, hst, isTerminal_running]

/-- Counterexample to claim C9 as stated: the empty destination path does not
name an existing directory (`is_dir` is false), yet `Path::parent` returns
nothing and the routine reaches the `expect` abort. -/
theorem claim9_counterexample :
    RsPath.parent pathEmpty = none
    ∧ worldEmptyStream.isDir = false
    ∧ (download_to_file pathEmpty worldEmptyStream).outcome = RoutineOutcome.panicked := by
  refine ⟨rfl, rfl, ?_⟩
  rfl

/-- Witness for the amended claim C9 at a concrete path and world. -/
theorem claim9_witness :
    (download_to_file pathF worldUrlFail).outcome ≠ RoutineOutcome.panicked
    ∧ (terminalWrites (download_to_file pathF worldUrlFail).log).length ≤ 1
    ∧ ((finalDownload (download_to_file pathF worldUrlFail)).status.is_failed = true →
        (download_to_file pathF worldUrlFail).outcome = RoutineOutcome.returned
        ∧ terminalWrites (download_to_file pathF worldUrlFail).log
          = [(finalDownload (download_to_file pathF worldUrlFail)).status]) :=
  claim9_no_panic pathF worldUrlFail rfl

/-- Claim C5 (amended): when the HTTP response's status code does not
indicate success, the download terminates `Failed`, but the error it carries
is classified as a local-IO-kind error (`DownloadError::IoError` with kind
`InvalidInput`, synthesized from the status code), not as a transport
(`ReqwestError`) error. -/
theorem claim5_bad_status (output : RsPath) (w : World) (resp : Response)
    (h1 : w.intoUrl = true) (h2 : w.get = some resp) (h3 : resp.statusSuccess = false) :
    (finalDownload (download_to_file output w)).status
        = DownloadStatus.failed (DownloadError.ioError IoErrorKind.invalidInput)
    ∧ statusWrites (download_to_file output w).log
        = [DownloadStatus.running,
          DownloadStatus.failed (DownloadError.ioError IoErrorKind.invalidInput)]
    ∧ (download_to_file output w).outcome = RoutineOutcome.returned := by
  rw [download_eq_status output w resp h1 h2 h3]
  exact ⟨rfl, rfl, rfl⟩

/-- Counterexample to claim C5 as stated: at a concrete non-success response
the terminal error is the io kind, which is distinct from the transport
(`ReqwestError`) kind the claim requires. -/
theorem claim5_counterexample :
    worldBadStatus.get = some respBad
    ∧ respBad.statusSuccess = false
    ∧ (finalDownload (download_to_file pathF worldBadStatus)).status
        = DownloadStatus.failed (DownloadError.ioError IoErrorKind.invalidInput)
    ∧ DownloadError.ioError IoErrorKind.invalidInput ≠ DownloadError.reqwestError := by
  exact ⟨rfl, rfl, rfl, by decide⟩

/-- Witness for the amended claim C5 at a concrete world. -/
theorem claim5_witness :
    (finalDownload (download_to_file pathF worldBadStatus)).status
        = DownloadStatus.failed (DownloadError.ioError IoErrorKind.invalidInput)
    ∧ statusWrites (download_to_file pathF worldBadStatus).log
        = [DownloadStatus.running,
          DownloadStatus.failed (DownloadError.ioError IoErrorKind.invalidInput)]
    ∧ (download_to_file pathF worldBadStatus).outcome = RoutineOutcome.returned :=
  claim5_bad_status pathF worldBadStatus respBad rfl rfl rfl

/-- Claim C10: when the transfer routine fails at one of the steps preceding
the streaming loop (URL parse, request, non-success status, destination is a
directory, parent-directory creation, file open), the final state still has
`downloaded_size = 0` and `speed = 0`: besides `status`, only `total_size`
can have changed from the fresh `Pending` state, and only to the parsed
content-length header. -/
theorem claim10_preloop_frame (output : RsPath) (w : World)
    (h : preLoopFail output w = true) :
    (finalDownload (download_to_file output w)).status.is_failed = true
    ∧ (finalDownload (download_to_file output w)).downloaded_size = 0
    ∧ (finalDownload (download_to_file output w)).speed = 0
    ∧ (download_to_file output w).outcome = RoutineOutcome.returned
    ∧ ((finalDownload (download_to_file output w)).total_size = none
        ∨ (finalDownload (download_to_file output w)).total_size = worldContentLength w) := by
  unfold finalDownload
  refine download_rec output w
    (fun r => (applyLog r.log Download.pending).status.is_failed = true
      ∧ (applyLog r.log Download.pending).downloaded_size = 0
      ∧ (applyLog r.log Download.pending).speed = 0
      ∧ r.outcome = RoutineOutcome.returned
      ∧ ((applyLog r.log Download.pending).total_size = none
          ∨ (applyLog r.log Download.pending).total_size = worldContentLength w))
    ?_ ?_ ?_ ?_ ?_ ?_ ?_ ?_ ?_ ?_
  · intro _
    exact ⟨rfl, rfl, rfl, rfl, Or.inl rfl⟩
  · intro _ _
    exact ⟨rfl, rfl, rfl, rfl, Or.inl rfl⟩
  · intro _ _ _ _
    exact ⟨rfl, rfl, rfl, rfl, Or.inl rfl⟩
  · intro resp h1 h2 h3 h4
    cases hcl : parsedContentLength resp with
    | none => exact ⟨rfl, rfl, rfl, rfl, Or.inl rfl⟩
    | some n =>
      refine ⟨rfl, rfl, rfl, rfl, Or.inr ?_⟩
      simp [worldContentLength, h2, hcl, clPart, applyLog, applyEvent, Download.pending, fail_download]
  · intro resp h1 h2 h3 h4 h5
    exfalso
    simp [preLoopFail, h1, h2, h3, h4, h5] at h
  · intro resp pp k h1 h2 h3 h4 h5 h6
    cases hcl : parsedContentLength resp with
    | none => exact ⟨rfl, rfl, rfl, rfl, Or.inl rfl⟩
    | some n =>
      refine ⟨rfl, rfl, rfl, rfl, Or.inr ?_⟩
      simp [worldContentLength, h2, hcl, clPart, applyLog, applyEvent, Download.pending, fail_download]
  · intro resp pp k h1 h2 h3 h4 h5 h6 h7
    cases hcl : parsedContentLength resp with
    | none => exact ⟨rfl, rfl, rfl, rfl, Or.inl rfl⟩
    | some n =>
      refine ⟨rfl, rfl, rfl, rfl, Or.inr ?_⟩
      simp [worldContentLength, h2, hcl, clPart, applyLog, applyEvent, Download.pending, fail_download]
  · intro resp pp old h1 h2 h3 h4 h5 h6 h7 h8
    exfalso
    simp [preLoopFail, h1, h2, h3, h4, h5, h6, h7] at h
  · intro resp pp old h1 h2 h3 h4 h5 h6 h7 h8
    exfalso
    simp [preLoopFail, h1, h2, h3, h4, h5, h6, h7] at h
  · intro resp pp old h1 h2 h3 h4 h5 h6 h7 h8
    exfalso
    simp [preLoopFail, h1, h2, h3, h4, h5, h6, h7] at h

/-- Witness for claim C10 at a concrete pre-loop failure (URL parse). -/
theorem claim10_witness :
    preLoopFail pathF worldUrlFail = true
    ∧ ((finalDownload (download_to_file pathF worldUrlFail)).status.is_failed = true
      ∧ (finalDownload (download_to_file pathF worldUrlFail)).downloaded_size = 0
      ∧ (finalDownload (download_to_file pathF worldUrlFail)).speed = 0
      ∧ (download_to_file pathF worldUrlFail).outcome = RoutineOutcome.returned
      ∧ ((finalDownload (download_to_file pathF worldUrlFail)).total_size = none
          ∨ (finalDownload (download_to_file pathF worldUrlFail)).total_size
            = worldContentLength worldUrlFail)) :=
  ⟨rfl, claim10_preloop_frame pathF worldUrlFail rfl⟩

theorem sizeWrites_status_cons (st : DownloadStatus) (l : List MutEvent) :
    sizeWrites (MutEvent.setStatus st :: l) = sizeWrites l := rfl

theorem totalWrites_status_cons (st : DownloadStatus) (l : List MutEvent) :
    totalWrites (MutEvent.setStatus st :: l) = totalWrites l := rfl

theorem sizeWrites_nil : sizeWrites [] = [] := rfl

theorem totalWrites_nil : totalWrites [] = [] := rfl

theorem totalWrites_clPart_none : totalWrites (clPart none) = [] := rfl

theorem totalWrites_clPart_some (n : Nat) : totalWrites (clPart (some n)) = [n] := rfl

/-- A successful run's output file: the routine wrote exactly the streamed
bytes from offset zero over the pre-existing content, and the final
`downloaded_size` equals the number of bytes written. -/
theorem download_success_spec (output : RsPath) (w : World) (old : List Nat)
    (ho : w.openFile = Except.ok old)
    (hs : (finalDownload (download_to_file output w)).status = DownloadStatus.successful) :
    (download_to_file output w).diskContent
        = some ((download_to_file output w).writtenBytes
            ++ old.drop (download_to_file output w).writtenBytes.length)
    ∧ (finalDownload (download_to_file output w)).downloaded_size
        = (download_to_file output w).writtenBytes.length := by
  revert hs
  unfold finalDownload
  refine download_rec output w
    (fun r => (applyLog r.log Download.pending).status = DownloadStatus.successful →
      r.diskContent = some (r.writtenBytes ++ old.drop r.writtenBytes.length)
      ∧ (applyLog r.log Download.pending).downloaded_size = r.writtenBytes.length)
    ?_ ?_ ?_ ?_ ?_ ?_ ?_ ?_ ?_ ?_
  · intro _ hs
    exact absurd hs (by simp [applyLog, applyEvent, fail_download, Download.pending])
  · intro _ _ hs
    exact absurd hs (by simp [applyLog, applyEvent, fail_download, Download.pending])
  · intro _ _ _ _ hs
    exact absurd hs (by simp [applyLog, applyEvent, fail_download, Download.pending])
  · intro resp _ _ _ _ hs
    exfalso
    cases hcl : parsedContentLength resp <;> rw [hcl] at hs <;>
      simp [clPart, applyLog, applyEvent, fail_download, Download.pending] at hs
  · intro resp _ _ _ _ _ hs
    exfalso
    cases hcl : parsedContentLength resp <;> rw [hcl] at hs <;>
      simp [clPart, applyLog, applyEvent, Download.pending] at hs
  · intro resp pp k _ _ _ _ _ _ hs
    exfalso
    cases hcl : parsedContentLength resp <;> rw [hcl] at hs <;>
      simp [clPart, applyLog, applyEvent, fail_download, Download.pending] at hs
  · intro resp pp k _ _ _ _ _ _ _ hs
    exfalso
    cases hcl : parsedContentLength resp <;> rw [hcl] at hs <;>
      simp [clPart, applyLog, applyEvent, fail_download, Download.pending] at hs
  · intro resp pp old2 _ _ _ _ _ _ h7 _ hs
    rw [ho] at h7
    injection h7 with h7
    subst h7
    refine ⟨rfl, ?_⟩
    simp only [size_applyLog, sizeWrites_status_cons, sizeWrites_append, sizeWrites_clPart,
      sizeWrites_nil, List.append_nil, List.nil_append, RunResult.writtenBytes, Download.pending]
    rw [streamLoop_size w.events 0 0 []]
    exact streamLoop_written w.events 0 0 [] rfl
  · intro resp pp old2 _ _ _ _ _ _ _ hout hs
    exfalso
    rcases streamLoop_status w.events 0 0 [] with ⟨hs1, hs2⟩ | ⟨k, hs1, hs2⟩
    · exact absurd hout hs2
    · simp only [status_applyLog, statusWrites_status_cons, statusWrites_append,
        statusWrites_clPart, hs1] at hs
      simp [lastD] at hs
  · intro resp pp old2 _ _ _ _ _ _ _ hout hs
    exfalso
    rcases streamLoop_status w.events 0 0 [] with ⟨hs1, hs2⟩ | ⟨k, hs1, hs2⟩
    · simp only [status_applyLog, statusWrites_status_cons, statusWrites_append,
        statusWrites_clPart, hs1] at hs
      simp [lastD, Download.pending] at hs
    · rw [hs2] at hout
      exact absurd hout (by simp)

/-- The routine either never writes `total_size` or writes it exactly once,
to the parsed content-length of the response. -/
theorem download_totalWrites (output : RsPath) (w : World) :
    totalWrites (download_to_file output w).log = []
    ∨ ∃ n, worldContentLength w = some n
        ∧ totalWrites (download_to_file output w).log = [n] := by
  refine download_rec output w
    (fun r => totalWrites r.log = []
      ∨ ∃ n, worldContentLength w = some n ∧ totalWrites r.log = [n])
    ?_ ?_ ?_ ?_ ?_ ?_ ?_ ?_ ?_ ?_
  · exact fun _ => Or.inl rfl
  · exact fun _ _ => Or.inl rfl
  · exact fun _ _ _ _ => Or.inl rfl
  · intro resp _ h2 _ _
    cases hcl : parsedContentLength resp with
    | none => exact Or.inl rfl
    | some n => exact Or.inr ⟨n, by simp [worldContentLength, h2, hcl], rfl⟩
  · intro resp _ h2 _ _ _
    cases hcl : parsedContentLength resp with
    | none => exact Or.inl rfl
    | some n => exact Or.inr ⟨n, by simp [worldContentLength, h2, hcl], rfl⟩
  · intro resp pp k _ h2 _ _ _ _
    cases hcl : parsedContentLength resp with
    | none => exact Or.inl rfl
    | some n => exact Or.inr ⟨n, by simp [worldContentLength, h2, hcl], rfl⟩
  · intro resp pp k _ h2 _ _ _ _ _
    cases hcl : parsedContentLength resp with
    | none => exact Or.inl rfl
    | some n => exact Or.inr ⟨n, by simp [worldContentLength, h2, hcl], rfl⟩
  · intro resp pp old _ h2 _ _ _ _ _ _
    cases hcl : parsedContentLength resp with
    | none =>
      refine Or.inl ?_
      simp only [totalWrites_status_cons, totalWrites_append, totalWrites_clPart_none,
        totalWrites_nil, streamLoop_total, List.append_nil, List.nil_append]
    | some n =>
      refine Or.inr ⟨n, by simp [worldContentLength, h2, hcl], ?_⟩
      simp only [totalWrites_status_cons, totalWrites_append, totalWrites_clPart_some,
        totalWrites_nil, streamLoop_total, List.append_nil, List.nil_append]
  · intro resp pp old _ h2 _ _ _ _ _ _
    cases hcl : parsedContentLength resp with
    | none =>
      refine Or.inl ?_
      simp only [totalWrites_status_cons, totalWrites_append, totalWrites_clPart_none,
        streamLoop_total, List.append_nil, List.nil_append]
    | some n =>
      refine Or.inr ⟨n, by simp [worldContentLength, h2, hcl], ?_⟩
      simp only [totalWrites_status_cons, totalWrites_append, totalWrites_clPart_some,
        streamLoop_total, List.append_nil, List.nil_append]
  · intro resp pp old _ h2 _ _ _ _ _ _
    cases hcl : parsedContentLength resp with
    | none =>
      refine Or.inl ?_
      simp only [totalWrites_status_cons, totalWrites_append, totalWrites_clPart_none,
        streamLoop_total, List.append_nil, List.nil_append]
    | some n =>
      refine Or.inr ⟨n, by simp [worldContentLength, h2, hcl], ?_⟩
      simp only [totalWrites_status_cons, totalWrites_append, totalWrites_clPart_some,
        streamLoop_total, List.append_nil, List.nil_append]

/-- Failing to open the destination file terminates the download `Failed`
with a local io error of the open error's kind. -/
theorem download_open_error (output : RsPath) (w : World) (k : IoErrorKind)
    (hro : reachesOpen output w = true) (ho : w.openFile = Except.error k) :
    (finalDownload (download_to_file output w)).status
        = DownloadStatus.failed (DownloadError.ioError k)
    ∧ (download_to_file output w).outcome = RoutineOutcome.returned := by
  unfold finalDownload
  refine download_rec output w
    (fun r => (applyLog r.log Download.pending).status
        = DownloadStatus.failed (DownloadError.ioError k)
      ∧ r.outcome = RoutineOutcome.returned)
    ?_ ?_ ?_ ?_ ?_ ?_ ?_ ?_ ?_ ?_
  · intro h1
    exact absurd hro (by simp [reachesOpen, h1])
  · intro h1 h2
    exact absurd hro (by simp [reachesOpen, h1, h2])
  · intro resp h1 h2 h3
    exact absurd hro (by simp [reachesOpen, h1, h2, h3])
  · intro resp h1 h2 h3 h4
    exact absurd hro (by simp [reachesOpen, h1, h2, h3, h4])
  · intro resp h1 h2 h3 h4 h5
    exact absurd hro (by simp [reachesOpen, h1, h2, h3, h4, h5])
  · intro resp pp k2 h1 h2 h3 h4 h5 h6
    exact absurd hro (by simp [reachesOpen, h1, h2, h3, h4, h5, h6])
  · intro resp pp k2 h1 h2 h3 h4 h5 h6 h7
    rw [ho] at h7
    injection h7 with h7
    subst h7
    refine ⟨?_, rfl⟩
    cases hcl : parsedContentLength resp <;>
      simp [clPart, applyLog, applyEvent, fail_download, Download.pending]
  · intro resp pp old h1 h2 h3 h4 h5 h6 h7 h8
    rw [ho] at h7
    exact absurd h7 (by simp)
  · intro resp pp old h1 h2 h3 h4 h5 h6 h7 h8
    rw [ho] at h7
    exact absurd h7 (by simp)
  · intro resp pp old h1 h2 h3 h4 h5 h6 h7 h8
    rw [ho] at h7
    exact absurd h7 (by simp)

/-- When the response carries no parseable content-length, `total_size` is
never written and stays unset. -/
theorem download_total_none (output : RsPath) (w : World)
    (h : worldContentLength w = none) :
    (finalDownload (download_to_file output w)).total_size = none
    ∧ totalWrites (download_to_file output w).log = [] := by
  rcases download_totalWrites output w with ht | ⟨n, hn, ht⟩
  · refine ⟨?_, ht⟩
    rw [finalDownload, total_applyLog, ht]
    rfl
  · rw [h] at hn
    exact absurd hn (by simp)

/-- Claim C3 (amended): at every success, `downloaded_size` equals the number
of bytes the routine wrote; since the open options never truncate, the file
on disk has length `max written pre-existing` — it equals `downloaded_size`
exactly when the pre-existing content is no longer than the download.  A
response with no parseable content-length is no error: such a run can still
be `Successful`, and in that case `total_size` is never written and stays
unset throughout. -/
theorem claim3_success_roundtrip (output : RsPath) (w : World) (old : List Nat)
    (h1 : w.openFile = Except.ok old)
    (hs : (finalDownload (download_to_file output w)).status = DownloadStatus.successful) :
    (finalDownload (download_to_file output w)).downloaded_size
        = (download_to_file output w).writtenBytes.length
    ∧ ((download_to_file output w).diskContent).map List.length
        = some (max (download_to_file output w).writtenBytes.length old.length)
    ∧ (worldContentLength w = none →
        (finalDownload (download_to_file output w)).total_size = none
        ∧ totalWrites (download_to_file output w).log = []) := by
  obtain ⟨hd, hsz⟩ := download_success_spec output w old h1 hs
  refine ⟨hsz, ?_, fun h2 => download_total_none output w h2⟩
  rw [hd]
  simp only [Option.map_some', List.length_append, List.length_drop, Option.some.injEq]
  omega

/-- Counterexample to claim C3 as stated: a successful transfer of zero bytes
into a pre-existing three-byte file leaves the file at three bytes, so
`downloaded_size` (0) differs from the size of the output file on disk (3). -/
theorem claim3_counterexample :
    (finalDownload (download_to_file pathF worldEmptyStream)).status = DownloadStatus.successful
    ∧ (finalDownload (download_to_file pathF worldEmptyStream)).downloaded_size = 0
    ∧ (download_to_file pathF worldEmptyStream).diskContent = some [7, 7, 7] := by
  exact ⟨rfl, rfl, rfl⟩

/-- Witness for the amended claim C3 at a concrete successful run with no
content-length header. -/
theorem claim3_witness :
    (finalDownload (download_to_file pathF worldEmptyStream)).downloaded_size
        = (download_to_file pathF worldEmptyStream).writtenBytes.length
    ∧ ((download_to_file pathF worldEmptyStream).diskContent).map List.length
        = some (max (download_to_file pathF worldEmptyStream).writtenBytes.length
            [7, 7, 7].length)
    ∧ (worldContentLength worldEmptyStream = none →
        (finalDownload (download_to_file pathF worldEmptyStream)).total_size = none
        ∧ totalWrites (download_to_file pathF worldEmptyStream).log = []) :=
  claim3_success_roundtrip pathF worldEmptyStream [7, 7, 7] rfl rfl

/-- Claim C8 (amended): the destination file is opened with create-if-absent,
read/write, non-append semantics, but these do **not** truncate pre-existing
content: after a successful transfer the file holds the downloaded bytes
followed by whatever pre-existing bytes lie beyond the downloaded length (so
it holds exactly the downloaded bytes only when nothing longer pre-existed);
and a failure to open the file terminates the download `Failed` with a
local-io-kind error. -/
theorem claim8_open_no_truncate (output : RsPath) (w : World) (old : List Nat)
    (output2 : RsPath) (w2 : World) (k : IoErrorKind)
    (h1 : w.openFile = Except.ok old)
    (hs : (finalDownload (download_to_file output w)).status = DownloadStatus.successful)
    (h2 : reachesOpen output2 w2 = true) (h3 : w2.openFile = Except.error k) :
    (download_to_file output w).diskContent
        = some ((download_to_file output w).writtenBytes
            ++ old.drop (download_to_file output w).writtenBytes.length)
    ∧ (finalDownload (download_to_file output w)).downloaded_size
        = (download_to_file output w).writtenBytes.length
    ∧ (finalDownload (download_to_file output2 w2)).status
        = DownloadStatus.failed (DownloadError.ioError k)
    ∧ (download_to_file output2 w2).outcome = RoutineOutcome.returned := by
  obtain ⟨ha, hb⟩ := download_success_spec output w old h1 hs
  obtain ⟨hc, hd⟩ := download_open_error output2 w2 k h2 h3
  exact ⟨ha, hb, hc, hd⟩

/-- Counterexample to claim C8 as stated: after successfully downloading one
byte over a pre-existing three-byte file, the file contains the old bytes
past position one — not exactly the downloaded bytes — because the open
options do not truncate. -/
theorem claim8_counterexample :
    (finalDownload (download_to_file pathF worldOneChunk)).status = DownloadStatus.successful
    ∧ (download_to_file pathF worldOneChunk).writtenBytes = [1]
    ∧ (download_to_file pathF worldOneChunk).diskContent = some [1, 7, 7]
    ∧ some [1, 7, 7] ≠ some ([1] : List Nat) := by
  exact ⟨rfl, rfl, rfl, by decide⟩

/-- Witness for the amended claim C8 at concrete runs: a successful one-byte
download over a three-byte file, and an open failure. -/
theorem claim8_witness :
    (download_to_file pathF worldOneChunk).diskContent
        = some ((download_to_file pathF worldOneChunk).writtenBytes
            ++ [7, 7, 7].drop (download_to_file pathF worldOneChunk).writtenBytes.length)
    ∧ (finalDownload (download_to_file pathF worldOneChunk)).downloaded_size
        = (download_to_file pathF worldOneChunk).writtenBytes.length
    ∧ (finalDownload (download_to_file pathF worldOpenFail)).status
        = DownloadStatus.failed (DownloadError.ioError IoErrorKind.other)
    ∧ (download_to_file pathF worldOpenFail).outcome = RoutineOutcome.returned :=
  claim8_open_no_truncate pathF worldOneChunk [7, 7, 7] pathF worldOpenFail
    IoErrorKind.other rfl rfl rfl rfl

/-- Claim C4: interleaving interrupted signals (interrupted reads, which the
loop retries, and interrupted low-level write errors, which `write_all`
retries) into a transfer changes nothing observable besides speed samples:
erasing them all yields the same status writes, the same final
`downloaded_size`, the same outcome and the same output file — in particular
a run that succeeds with interruptions succeeds with the same byte count
without them. -/
theorem claim4_interrupt_insensitive (output : RsPath) (w : World) :
    statusWrites (download_to_file output { w with events := eraseInterrupts w.events }).log
        = statusWrites (download_to_file output w).log
    ∧ (finalDownload (download_to_file output
          { w with events := eraseInterrupts w.events })).downloaded_size
        = (finalDownload (download_to_file output w)).downloaded_size
    ∧ (download_to_file output { w with events := eraseInterrupts w.events }).outcome
        = (download_to_file output w).outcome
    ∧ (download_to_file output { w with events := eraseInterrupts w.events }).file
        = (download_to_file output w).file := by
  obtain ⟨iu, g, idir, cda, of, ev⟩ := w
  obtain ⟨h1, h2, h3, h4⟩ := streamLoop_erase ev 0 0 0 []
  have hsw : statusWrites (streamLoop (eraseInterrupts ev) 0 0 []).log
      = statusWrites (streamLoop ev 0 0 []).log := by
    rw [← statusWrites_nonSpeed, h1, statusWrites_nonSpeed]
  have hzw : sizeWrites (streamLoop (eraseInterrupts ev) 0 0 []).log
      = sizeWrites (streamLoop ev 0 0 []).log := by
    rw [← sizeWrites_nonSpeed, h1, sizeWrites_nonSpeed]
  cases iu with
  | false =>
    rw [download_eq_url output ⟨false, g, idir, cda, of, eraseInterrupts ev⟩ rfl,
      download_eq_url output ⟨false, g, idir, cda, of, ev⟩ rfl]
    exact ⟨rfl, rfl, rfl, rfl⟩
  | true =>
    cases g with
    | none =>
      rw [download_eq_get output ⟨true, none, idir, cda, of, eraseInterrupts ev⟩ rfl rfl,
        download_eq_get output ⟨true, none, idir, cda, of, ev⟩ rfl rfl]
      exact ⟨rfl, rfl, rfl, rfl⟩
    | some resp =>
      cases hsucc : resp.statusSuccess with
      | false =>
        rw [download_eq_status output ⟨true, some resp, idir, cda, of, eraseInterrupts ev⟩
            resp rfl rfl hsucc,
          download_eq_status output ⟨true, some resp, idir, cda, of, ev⟩ resp rfl rfl hsucc]
        exact ⟨rfl, rfl, rfl, rfl⟩
      | true =>
        cases idir with
        | true =>
          rw [download_eq_isDir output ⟨true, some resp, true, cda, of, eraseInterrupts ev⟩
              resp rfl rfl hsucc rfl,
            download_eq_isDir output ⟨true, some resp, true, cda, of, ev⟩ resp rfl rfl hsucc rfl]
          exact ⟨rfl, rfl, rfl, rfl⟩
        | false =>
          cases hp : output.parent with
          | none =>
            rw [download_eq_parent output ⟨true, some resp, false, cda, of, eraseInterrupts ev⟩
                resp rfl rfl hsucc rfl hp,
              download_eq_parent output ⟨true, some resp, false, cda, of, ev⟩
                resp rfl rfl hsucc rfl hp]
            exact ⟨rfl, rfl, rfl, rfl⟩
          | some pp =>
            cases cda with
            | some k =>
              rw [download_eq_mkdir output
                  ⟨true, some resp, false, some k, of, eraseInterrupts ev⟩
                  resp pp k rfl rfl hsucc rfl hp rfl,
                download_eq_mkdir output ⟨true, some resp, false, some k, of, ev⟩
                  resp pp k rfl rfl hsucc rfl hp rfl]
              exact ⟨rfl, rfl, rfl, rfl⟩
            | none =>
              cases of with
              | error k =>
                rw [download_eq_open output
                    ⟨true, some resp, false, none, Except.error k, eraseInterrupts ev⟩
                    resp pp k rfl rfl hsucc rfl hp rfl rfl,
                  download_eq_open output
                    ⟨true, some resp, false, none, Except.error k, ev⟩
                    resp pp k rfl rfl hsucc rfl hp rfl rfl]
                exact ⟨rfl, rfl, rfl, rfl⟩
              | ok old =>
                cases hout : (streamLoop ev 0 0 []).out with
                | success =>
                  rw [download_eq_loop_success output
                      ⟨true, some resp, false, none, Except.ok old, eraseInterrupts ev⟩
                      resp pp old rfl rfl hsucc rfl hp rfl rfl (h2.trans hout),
                    download_eq_loop_success output
                      ⟨true, some resp, false, none, Except.ok old, ev⟩
                      resp pp old rfl rfl hsucc rfl hp rfl rfl hout]
                  refine ⟨?_, ?_, rfl, ?_⟩
                  · simp only [statusWrites_status_cons, statusWrites_append,
                      statusWrites_clPart, hsw]
                  · simp only [finalDownload, size_applyLog, sizeWrites_status_cons,
                      sizeWrites_append, sizeWrites_clPart, sizeWrites_nil, List.append_nil,
                      List.nil_append, hzw]
                  · simp only [h4]
                | failed =>
                  rw [download_eq_loop_failed output
                      ⟨true, some resp, false, none, Except.ok old, eraseInterrupts ev⟩
                      resp pp old rfl rfl hsucc rfl hp rfl rfl (h2.trans hout),
                    download_eq_loop_failed output
                      ⟨true, some resp, false, none, Except.ok old, ev⟩
                      resp pp old rfl rfl hsucc rfl hp rfl rfl hout]
                  refine ⟨?_, ?_, rfl, ?_⟩
                  · simp only [statusWrites_status_cons, statusWrites_append,
                      statusWrites_clPart, hsw]
                  · simp only [finalDownload, size_applyLog, sizeWrites_status_cons,
                      sizeWrites_append, sizeWrites_clPart, sizeWrites_nil, List.append_nil,
                      List.nil_append, hzw]
                  · simp only [h4]
                | stuck =>
                  rw [download_eq_loop_stuck output
                      ⟨true, some resp, false, none, Except.ok old, eraseInterrupts ev⟩
                      resp pp old rfl rfl hsucc rfl hp rfl rfl (h2.trans hout),
                    download_eq_loop_stuck output
                      ⟨true, some resp, false, none, Except.ok old, ev⟩
                      resp pp old rfl rfl hsucc rfl hp rfl rfl hout]
                  refine ⟨?_, ?_, rfl, ?_⟩
                  · simp only [statusWrites_status_cons, statusWrites_append,
                      statusWrites_clPart, hsw]
                  · simp only [finalDownload, size_applyLog, sizeWrites_status_cons,
                      sizeWrites_append, sizeWrites_clPart, sizeWrites_nil, List.append_nil,
                      List.nil_append, hzw]
                  · simp only [h4]

theorem filter_length_split {α : Type} (l : List α) (p : α → Bool) :
    (l.filter p).length + (l.filter fun a => !p a).length = l.length := by
  induction l with
  | nil => rfl
  | cons a t ih =>
    by_cases h : p a = true <;> simp [List.filter_cons, h, ← ih] <;> omega

theorem get?_concat_self {α : Type} (l : List α) (a : α) :
    (l ++ [a]).get? l.length = some a := by
  induction l with
  | nil => rfl
  | cons x t ih => simp [ih]

theorem get?_append_left {α : Type} (l₁ l₂ : List α) (n : Nat) (h : n < l₁.length) :
    (l₁ ++ l₂).get? n = l₁.get? n := by
  induction l₁ generalizing n with
  | nil => exact absurd h (by simp)
  | cons x t ih =>
    cases n with
    | zero => rfl
    | succ n0 => simpa using ih n0 (by simpa using h)

theorem get?_set_ne {α : Type} (l : List α) (i j : Nat) (a : α) (h : i ≠ j) :
    (l.set i a).get? j = l.get? j := by
  induction l generalizing i j with
  | nil => rfl
  | cons x t ih =>
    cases i with
    | zero =>
      cases j with
      | zero => exact absurd rfl h
      | succ j0 => rfl
    | succ i0 =>
      cases j with
      | zero => rfl
      | succ j0 => simpa using ih i0 j0 (by omega)

/-- `List.lookup` over the keys-replaced map: when the key occurs, the lookup
finds the replacement value. -/
theorem lookup_replace (l : List (String × Nat)) (k : String) (v : Nat)
    (h : (l.any fun e => e.1 = k) = true) :
    List.lookup k (l.map fun e => if e.1 = k then (k, v) else e) = some v := by
  induction l with
  | nil => simp at h
  | cons a t ih =>
    obtain ⟨a1, a2⟩ := a
    rw [List.any_cons] at h
    by_cases ha : a1 = k
    · have hh : (if (a1, a2).1 = k then (k, v) else (a1, a2)) = (k, v) := if_pos ha
      rw [List.map_cons, hh]
      simp [List.lookup]
    · have hpa : (decide (a1 = k)) = false := by simpa using ha
      rw [hpa] at h
      simp only [Bool.false_or] at h
      have hh : (if (a1, a2).1 = k then (k, v) else (a1, a2)) = (a1, a2) := if_neg ha
      rw [List.map_cons, hh]
      have hne : (k == a1) = false := beq_eq_false_iff_ne.mpr fun hc => ha hc.symm
      simpa [List.lookup, hne] using ih h

theorem lookup_append_absent (l : List (String × Nat)) (k : String) (v : Nat)
    (h : (l.any fun e => e.1 = k) = false) :
    List.lookup k (l ++ [(k, v)]) = some v := by
  induction l with
  | nil => simp [List.lookup]
  | cons a t ih =>
    obtain ⟨a1, a2⟩ := a
    rw [List.any_cons] at h
    rcases Bool.or_eq_false_iff.mp h with ⟨h1, h2⟩
    have ha : ¬a1 = k := by simpa using h1
    have hne : (k == a1) = false := beq_eq_false_iff_ne.mpr fun hc => ha hc.symm
    rw [List.cons_append]
    simpa [List.lookup, hne] using ih h2

/-- Looking up the freshly inserted key finds the fresh value. -/
theorem lookup_hmInsert (l : List (String × Nat)) (k : String) (v : Nat) :
    List.lookup k (hmInsert l k v) = some v := by
  by_cases h : (l.any fun e => e.1 = k) = true
  · simp only [hmInsert, if_pos h]
    exact lookup_replace l k v h
  · simp only [hmInsert, if_neg h]
    exact lookup_append_absent l k v (Bool.eq_false_iff.mpr h)

/-- Inserting an already present key keeps the registry size. -/
theorem length_hmInsert_mem (l : List (String × Nat)) (k : String) (v : Nat)
    (h : (l.any fun e => e.1 = k) = true) :
    (hmInsert l k v).length = l.length := by
  simp [hmInsert, h]

/-- After an insert the key is present. -/
theorem any_hmInsert_self (l : List (String × Nat)) (k : String) (v : Nat) :
    ((hmInsert l k v).any fun e => e.1 = k) = true := by
  by_cases h : (l.any fun e => e.1 = k) = true
  · simp only [hmInsert, if_pos h]
    induction l with
    | nil => simp at h
    | cons a t ih =>
      obtain ⟨a1, a2⟩ := a
      rw [List.any_cons] at h
      by_cases ha : a1 = k
      · have hh : (if (a1, a2).1 = k then (k, v) else (a1, a2)) = (k, v) := if_pos ha
        rw [List.map_cons, hh, List.any_cons]
        simp
      · have hpa : (decide (a1 = k)) = false := by simpa using ha
        rw [hpa] at h
        simp only [Bool.false_or] at h
        have hh : (if (a1, a2).1 = k then (k, v) else (a1, a2)) = (a1, a2) := if_neg ha
        rw [List.map_cons, hh, List.any_cons]
        simp [ih h]
  · simp [hmInsert, if_neg h]

/-- Claim C2: `remove_failed` removes exactly the entries whose status is
`Failed` at call time, keeps every other entry (and the heap of states), and
returns one proxy per removed entry, so the returned list's length plus the
new size equals the old size. -/
theorem claim2_remove_failed (m : DownloadManager) :
    (m.remove_failed).1.heap = m.heap
    ∧ (m.remove_failed).1.downloads
        = m.downloads.filter (fun e => !heapFailed m.heap e.2)
    ∧ (m.remove_failed).2
        = (m.downloads.filter fun e => heapFailed m.heap e.2).map
            (fun e => ({ download := e.2 } : DownloadProxy))
    ∧ (m.remove_failed).2.length + (m.remove_failed).1.size = m.size
    ∧ (m.remove_failed).1.size = m.size - (m.remove_failed).2.length := by
  have hsplit := filter_length_split m.downloads fun e => heapFailed m.heap e.2
  refine ⟨rfl, rfl, rfl, ?_, ?_⟩
  · simp only [DownloadManager.remove_failed, DownloadManager.size, List.length_map]
    exact hsplit
  · simp only [DownloadManager.remove_failed, DownloadManager.size, List.length_map]
    omega

/-- Claim C6: looking up an unregistered path yields nothing; immediately
after `download(link, path)` the path resolves to a proxy of the freshly
registered state, which is pending — and the spawned transfer routine's very
first mutation (for any world) is the switch to `Running`, so the state stays
pending until the worker performs it. -/
theorem claim6_registration (m : DownloadManager) (p link : String) (output : RsPath)
    (w : World) (h : List.lookup p m.downloads = none) :
    m.get_download p = none
    ∧ (m.download link p).1.get_download p = some { download := (m.download link p).2 }
    ∧ DownloadProxy.is_pending (m.download link p).1.heap { download := (m.download link p).2 }
        = true
    ∧ Download.pending.status.is_pending = true
    ∧ (download_to_file output w).log.head?
        = some (MutEvent.setStatus DownloadStatus.running) := by
  refine ⟨?_, ?_, ?_, rfl, download_log_head output w⟩
  · simp [DownloadManager.get_download, h]
  · simp [DownloadManager.get_download, DownloadManager.download, lookup_hmInsert]
  · simp [DownloadProxy.is_pending, DownloadManager.download, get?_concat_self,
      Download.pending, DownloadStatus.is_pending]

/-- Witness for claim C6 on the empty manager. -/
theorem claim6_witness :
    DownloadManager.new.get_download "a" = none
    ∧ (DownloadManager.new.download "u" "a").1.get_download "a"
        = some { download := (DownloadManager.new.download "u" "a").2 }
    ∧ DownloadProxy.is_pending (DownloadManager.new.download "u" "a").1.heap
        { download := (DownloadManager.new.download "u" "a").2 } = true
    ∧ Download.pending.status.is_pending = true
    ∧ (download_to_file pathF worldUrlFail).log.head?
        = some (MutEvent.setStatus DownloadStatus.running) :=
  claim6_registration DownloadManager.new "a" "u" pathF worldUrlFail rfl

/-- Claim C7: after two `download` calls for the same path, the registry
resolves the path only to the second state; the second call does not change
`size()`; the first state is still alive in the heap (still pending, as its
worker has not run), and mutating the second state through any worker update
leaves the first state untouched. -/
theorem claim7_overwrite (m : DownloadManager) (link1 link2 p : String) :
    ((m.download link1 p).1.download link2 p).1.get_download p
        = some { download := ((m.download link1 p).1.download link2 p).2 }
    ∧ (m.download link1 p).2 ≠ ((m.download link1 p).1.download link2 p).2
    ∧ ((m.download link1 p).1.download link2 p).1.size = (m.download link1 p).1.size
    ∧ ((m.download link1 p).1.download link2 p).1.heap.get? (m.download link1 p).2
        = some Download.pending
    ∧ ∀ f, (((m.download link1 p).1.download link2 p).1.applyAt
            ((m.download link1 p).1.download link2 p).2 f).heap.get?
            (m.download link1 p).2
        = ((m.download link1 p).1.download link2 p).1.heap.get?
            (m.download link1 p).2 := by
  refine ⟨?_, ?_, ?_, ?_, ?_⟩
  · simp [DownloadManager.get_download, DownloadManager.download, lookup_hmInsert]
  · simp [DownloadManager.download]
  · simp only [DownloadManager.download, DownloadManager.size]
    exact length_hmInsert_mem _ _ _ (any_hmInsert_self m.downloads p m.heap.length)
  · simp only [DownloadManager.download]
    rw [get?_append_left _ _ _ (by simp), get?_concat_self]
  · intro f
    simp only [DownloadManager.download, DownloadManager.applyAt]
    exact get?_set_ne _ _ _ _ (by simp)

end PhyrexianDownload
